import Mathlib

/-!
# Verification of the double-entry bookkeeping core

A shallow embedding of the `app/crud` and `app/utils` layers of the
financial-system repository, together with proofs about the amount codec,
the ledger engine, the account registry, the recurring-charge scheduler and
the cash-flow statement generator.

Conventions of the embedding:

* Python `Decimal` values are modelled by `Dec` (a coefficient together with
  a base-ten exponent, exactly as `Decimal.as_tuple()` exposes them); their
  numeric value lives in `ℚ`.  All `Decimal` arithmetic performed by the
  source (sums of split amounts, balance updates) is exact, so `ℚ` is a
  faithful carrier.
* Database GUIDs are produced by `uuid4().hex` and are only ever compared
  for equality; they are modelled as naturals drawn from a counter
  (`DB.guidSeq`) so that freshness of generated identifiers is explicit.
* A SQLAlchemy session is a value of type `DB`; an operation that raises
  `ValueError` is modelled as `Except.error`, in which case the session is
  rolled back by `session_scope` and the state is unchanged.
* Primary-key lookups (`db.get`) return the first (and, in any reachable
  database state, the only) row with the given key.
* Timestamp columns (`created_at`, `updated_at`, `enter_date`,
  `last_run_at`) never influence the verified behaviour and are omitted.
-/


/-! ## Amount codec (`app/utils/amount_helper.py`) -/

/-- A Python `Decimal`: the value is `m * 10 ^ exponent`.
`Decimal("12.345").as_tuple()` has coefficient `12345` and exponent `-3`. -/
structure Dec where
  m : Int
  exponent : Int
  deriving DecidableEq, Repr

/-- Numeric value of a decimal. -/
def Dec.val (d : Dec) : ℚ := (d.m : ℚ) * (10 : ℚ) ^ d.exponent

/-- Decimal negation (`-d` keeps the exponent and negates the coefficient). -/
def Dec.neg (d : Dec) : Dec := ⟨-d.m, d.exponent⟩

/-- `ROUND_HALF_UP` to an integer: round to nearest, ties away from zero. -/
def roundHalfUp (q : ℚ) : Int :=
  if 0 ≤ q then ⌊q + 1/2⌋ else -⌊-q + 1/2⌋

/-- `decimal_to_fraction(amount, min_scale=2, max_scale=6)`:
`exponent = -amount.as_tuple().exponent`,
`scale = min(max(exponent, min_scale), max_scale)`,
`denominator = 10**scale`,
`numerator = int((amount * denominator).quantize(1, ROUND_HALF_UP))`. -/
def decimal_to_fraction (d : Dec) : Int × Int :=
  let exponent : Int := -d.exponent
  let scale : Int := min (max exponent 2) 6
  let denominator : Int := 10 ^ scale.toNat
  let numerator : Int := roundHalfUp (d.val * (denominator : ℚ))
  (numerator, denominator)

/-- `fraction_to_decimal(numerator, denominator)`: exact rational division,
with `denominator or 1` guarding a zero (or missing) denominator. -/
def fraction_to_decimal (numerator denominator : Int) : ℚ :=
  (numerator : ℚ) / ((if denominator = 0 then 1 else denominator : Int) : ℚ)

/-- The value obtained by encoding a decimal and decoding it again. -/
def codecRoundtrip (d : Dec) : ℚ :=
  fraction_to_decimal (decimal_to_fraction d).1 (decimal_to_fraction d).2

/-! ## Data model (`app/models`)

GUIDs are opaque unique identifiers (`uuid4().hex`); they are modelled as
naturals handed out by the session counter `DB.guidSeq`. -/

/-- `accounts` row (timestamps omitted; `current_balance` is
debit-positive).  `current_balance` holds the exact session value the
crud layer assigns; the `Numeric(18, 6)` column quantizes it at commit,
which is modelled by `commitBalances` below. -/
structure Account where
  guid : Nat
  name : String
  account_type : String
  parent_guid : Option Nat
  code : Option String
  description : Option String
  hidden : Bool
  placeholder : Bool
  is_cash : Bool
  current_balance : ℚ
  deriving DecidableEq, Repr

/-- `splits` row.  `action`, `reconcile_state`, `reconcile_date` and
`created_at` are never read by the verified operations and are omitted. -/
structure Split where
  guid : Nat
  tx_guid : Nat
  account_guid : Nat
  memo : Option String
  value_num : Int
  value_denom : Int
  cashflow_type_id : Option Nat
  deriving DecidableEq, Repr

/-- Calendar date (`datetime.date`); comparison is lexicographic. -/
structure Date where
  year : Nat
  month : Nat
  day : Nat
  deriving DecidableEq, Repr, Inhabited

/-- `transactions` row together with the splits it owns. -/
structure Tx where
  guid : Nat
  num : Option String
  post_date : Date
  description : Option String
  business_type : Option String
  reference_no : Option String
  splits : List Split
  deriving DecidableEq, Repr, Inhabited

/-- `flow_type_enum` of `cashflow_types`. -/
inductive FlowType where
  | OPERATING
  | INVESTING
  | FINANCING
  deriving DecidableEq, Repr

/-- `direction_enum` of `cashflow_types`. -/
inductive Direction where
  | INFLOW
  | OUTFLOW
  deriving DecidableEq, Repr

/-- `cashflow_types` row. -/
structure CashflowType where
  id : Nat
  code : String
  name : String
  flow_type : FlowType
  direction : Direction
  is_active : Bool
  sort_order : Nat
  deriving DecidableEq, Repr

/-- `fixed_expenses` row (`last_run_at` and timestamps omitted).  The
account-guid columns are modelled as `Option Nat`: `none` stands for the
SQL `NULL` / empty string that the code treats as "not configured". -/
structure FixedExpense where
  id : Nat
  name : String
  amount : Dec
  expense_account_guid : Nat
  primary_account_guid : Option Nat
  fallback_account_guid : Option Nat
  day_of_month : Nat
  is_active : Bool
  last_run_month : Option Date
  deriving DecidableEq, Repr

/-- The database session state. -/
structure DB where
  accounts : List Account
  transactions : List Tx
  cashflow_types : List CashflowType
  guidSeq : Nat
  deriving DecidableEq, Repr

/-- `SplitCreate` input schema (`app/schemas/transaction.py`). -/
structure SplitCreate where
  account_guid : Nat
  amount : Dec
  memo : Option String
  cashflow_type_id : Option Nat
  deriving DecidableEq, Repr

/-- `TransactionCreate` input schema. -/
structure TransactionCreate where
  post_date : Date
  description : Option String
  business_type : Option String
  reference_no : Option String
  num : Option String
  splits : List SplitCreate
  deriving DecidableEq, Repr

/-- The `ValueError`s raised by the crud layer, modelled structurally
(the Python messages are formatted strings carrying the same data). -/
inductive LedgerError where
  | tooFewSplits
  | unbalancedSplits
  | balanceAccountMissing (guid : Nat)
  | txNotFound (guid : Nat)
  | duplicateName (name : String)
  | parentNotFound (guid : Nat)
  | accountNotFound (guid : Nat)
  | selfParent
  | hasChildren (names : List String)
  | nonzeroBalance (balance : ℚ)
  | accountInUse
  deriving DecidableEq, Repr

/-- `_split_amount`: `Decimal(value_num) / Decimal(value_denom or 1)`. -/
def storedAmount (s : Split) : ℚ :=
  (s.value_num : ℚ) / ((if s.value_denom = 0 then 1 else s.value_denom : Int) : ℚ)

/-- `db.get(Account, guid)`: primary-key lookup. -/
def findAccount (db : DB) (g : Nat) : Option Account :=
  db.accounts.find? (fun a => a.guid == g)

/-- `db.get(Transaction, guid)`: primary-key lookup. -/
def findTx (db : DB) (g : Nat) : Option Tx :=
  db.transactions.find? (fun t => t.guid == g)

def accountExists (db : DB) (g : Nat) : Bool :=
  (findAccount db g).isSome

/-- Current balance of the account with guid `g` (0 if absent). -/
def balanceOf (db : DB) (g : Nat) : ℚ :=
  ((findAccount db g).map (fun a => a.current_balance)).getD 0

/-- All split rows in the database. -/
def splitsOf (db : DB) : List Split :=
  db.transactions.flatMap (fun t => t.splits)

/-- Sum of the stored amounts of all splits referencing account `g`. -/
def splitSumFor (db : DB) (g : Nat) : ℚ :=
  (((splitsOf db).filter (fun s => s.account_guid == g)).map storedAmount).sum

/-! ## Ledger engine (`app/crud/transaction.py`) -/

/-- One `defaultdict` update `changes[g] += v` (insertion order kept). -/
def addChange : List (Nat × ℚ) → Nat → ℚ → List (Nat × ℚ)
  | [], g, v => [(g, v)]
  | (k, w) :: rest, g, v =>
      if k = g then (k, w + v) :: rest else (k, w) :: addChange rest g v

/-- The per-account signed delta map accumulated from the input splits
(`balance_changes[split.account_guid] += split.amount`). -/
def buildChanges (splits : List SplitCreate) : List (Nat × ℚ) :=
  splits.foldl (fun cs sd => addChange cs sd.account_guid sd.amount.val) []

/-- The rollback delta map accumulated from existing split rows
(`revert_changes[split.account_guid] -= _split_amount(split)`). -/
def buildRevertChanges (splits : List Split) : List (Nat × ℚ) :=
  splits.foldl (fun cs s => addChange cs s.account_guid (-storedAmount s)) []

/-- `account.current_balance = (account.current_balance or 0) + delta`. -/
def bumpBalance (a : Account) (v : ℚ) : Account :=
  { a with current_balance := a.current_balance + v }

/-- Apply one delta to the (unique) account row with guid `g`;
`none` when no such account exists. -/
def applyDelta : List Account → Nat → ℚ → Option (List Account)
  | [], _, _ => none
  | a :: rest, g, v =>
      if a.guid = g then some (bumpBalance a v :: rest)
      else (applyDelta rest g v).map (fun l => a :: l)

/-- `_apply_balance_changes`: iterate the delta map, failing on the first
account guid that does not resolve. -/
def apply_balance_changes :
    List Account → List (Nat × ℚ) → Except LedgerError (List Account)
  | accounts, [] => .ok accounts
  | accounts, (g, v) :: rest =>
      match applyDelta accounts g v with
      | none => .error (.balanceAccountMissing g)
      | some accounts1 => apply_balance_changes accounts1 rest

/-- Build the split rows of a transaction, encoding each amount with
`decimal_to_fraction` and drawing one fresh guid per split. -/
def mkSplits (txG : Nat) (seq : Nat) : List SplitCreate → List Split
  | [] => []
  | sd :: rest =>
      { guid := seq, tx_guid := txG, account_guid := sd.account_guid,
        memo := sd.memo,
        value_num := (decimal_to_fraction sd.amount).1,
        value_denom := (decimal_to_fraction sd.amount).2,
        cashflow_type_id := sd.cashflow_type_id } :: mkSplits txG (seq + 1) rest

/-- Exact decimal sum of the input split amounts. -/
def amountSum (data : TransactionCreate) : ℚ :=
  (data.splits.map (fun sd => sd.amount.val)).sum

/-- `TransactionCreate.ensure_double_entry`: at least two splits, and the
signed amounts must sum to exactly zero. -/
def ensure_double_entry (data : TransactionCreate) : Except LedgerError Unit :=
  if data.splits.length < 2 then .error .tooFewSplits
  else if amountSum data ≠ 0 then .error .unbalancedSplits
  else .ok ()

/-- The transaction row built by `create_transaction`: the transaction
takes the first fresh guid, its splits the following ones. -/
def mkTxOf (db : DB) (data : TransactionCreate) : Tx :=
  { guid := db.guidSeq, num := data.num, post_date := data.post_date,
    description := data.description, business_type := data.business_type,
    reference_no := data.reference_no,
    splits := mkSplits db.guidSeq (db.guidSeq + 1) data.splits }

/-- `create_transaction`: build the transaction and its splits, then apply
the balance deltas (raw decimal amounts).  An error rolls the session
back, so the state argument is returned unchanged by the caller. -/
def create_transaction (db : DB) (data : TransactionCreate) :
    Except LedgerError (DB × Tx) :=
  match apply_balance_changes db.accounts (buildChanges data.splits) with
  | .error e => .error e
  | .ok accounts1 =>
      .ok ({ db with accounts := accounts1,
                     transactions := db.transactions ++ [mkTxOf db data],
                     guidSeq := db.guidSeq + 1 + data.splits.length }, mkTxOf db data)

/-- `POST /transactions`: pydantic validation followed by
`create_transaction`. -/
def post_transaction (db : DB) (data : TransactionCreate) :
    Except LedgerError (DB × Tx) :=
  match ensure_double_entry data with
  | .error e => .error e
  | .ok _ => create_transaction db data

/-- The replacement row built by `update_transaction`: same transaction
guid, refreshed fields, and a fresh set of split rows. -/
def updatedTxOf (t0 : Tx) (db : DB) (data : TransactionCreate) : Tx :=
  { t0 with num := data.num, post_date := data.post_date,
            description := data.description,
            business_type := data.business_type,
            reference_no := data.reference_no,
            splits := mkSplits t0.guid db.guidSeq data.splits }

/-- `update_transaction` (behind the same pydantic validation): roll the
old splits' balance effect back, replace the split set, apply the new
deltas.  Any error rolls the whole unit of work back. -/
def update_transaction (db : DB) (guid : Nat) (data : TransactionCreate) :
    Except LedgerError (DB × Tx) :=
  match ensure_double_entry data with
  | .error e => .error e
  | .ok _ =>
      match findTx db guid with
      | none => .error (.txNotFound guid)
      | some t0 =>
          match apply_balance_changes db.accounts (buildRevertChanges t0.splits) with
          | .error e => .error e
          | .ok accounts1 =>
              match apply_balance_changes accounts1 (buildChanges data.splits) with
              | .error e => .error e
              | .ok accounts2 =>
                  .ok ({ db with accounts := accounts2,
                                 transactions := db.transactions.map
                                   (fun t => if t.guid = guid then updatedTxOf t0 db data
                                             else t),
                                 guidSeq := db.guidSeq + data.splits.length },
                       updatedTxOf t0 db data)

/-- `delete_transaction`: roll the balance effect back, then remove the
transaction (its splits cascade). -/
def delete_transaction (db : DB) (guid : Nat) : Except LedgerError DB :=
  match findTx db guid with
  | none => .error (.txNotFound guid)
  | some t0 =>
      match apply_balance_changes db.accounts (buildRevertChanges t0.splits) with
      | .error e => .error e
      | .ok accounts1 =>
          .ok { db with accounts := accounts1,
                        transactions := db.transactions.filter (fun t => t.guid ≠ guid) }

/-- A ledger operation issued through the API. -/
inductive Op where
  | post (data : TransactionCreate)
  | update (guid : Nat) (data : TransactionCreate)
  | delete (guid : Nat)
  deriving DecidableEq, Repr

/-- Run one operation; a raised error rolls the session back, leaving the
state unchanged. -/
def applyOp (db : DB) : Op → DB
  | .post data =>
      match post_transaction db data with
      | .ok r => r.1
      | .error _ => db
  | .update g data =>
      match update_transaction db g data with
      | .ok r => r.1
      | .error _ => db
  | .delete g =>
      match delete_transaction db g with
      | .ok db' => db'
      | .error _ => db

/-- The balance invariant of the spec: every account's `current_balance`
equals the sum of the stored amounts of the splits referencing it. -/
def balancedInv (db : DB) : Prop :=
  ∀ a ∈ db.accounts, a.current_balance = splitSumFor db a.guid

/-- Well-formedness of a database state: primary keys are unique, all
transaction guids were drawn from the counter, and balances match. -/
structure WF (db : DB) : Prop where
  acctNodup : (db.accounts.map (fun a => a.guid)).Nodup
  txNodup : (db.transactions.map (fun t => t.guid)).Nodup
  txBound : ∀ t ∈ db.transactions, t.guid < db.guidSeq
  balanced : balancedInv db

/-! ## Commit quantization (the `Numeric(18, 6)` balance column)

`accounts.current_balance` is declared `Numeric(18, 6)`.  The crud layer
assigns it an exact Python `Decimal` inside the session, but on
`session.commit()` MySQL stores the value rounded to six fractional
digits, half away from zero — the same rounding mode as
`decimal_to_fraction`'s `ROUND_HALF_UP`.  `commitBalances` models that
quantization; `applyOpC` is one API call followed by its commit. -/

/-- A rational exactly representable in the `Numeric(18, 6)` column:
at most six fractional digits. -/
def sixDigit (q : ℚ) : Prop := (q * 10 ^ 6).den = 1

/-- The quantization the `Numeric(18, 6)` column applies when a balance
is committed: round at the sixth fractional digit, ties away from zero. -/
def quantize6 (q : ℚ) : ℚ := (roundHalfUp (q * 10 ^ 6) : ℚ) / 10 ^ 6

/-- `session.commit()`: every account balance is persisted through the
`Numeric(18, 6)` column type. -/
def commitBalances (db : DB) : DB :=
  { db with
      accounts := db.accounts.map
        (fun a => { a with current_balance := quantize6 a.current_balance }) }

/-- Run one operation inside `session_scope`: an error rolls the session
back to the previous committed state, success commits the balances
through the column type. -/
def applyOpC (db : DB) (op : Op) : DB := commitBalances (applyOp db op)

/-- Every stored split fraction in the database has at most six
fractional digits (`decimal_to_fraction` only ever produces denominators
`10^s` with `2 ≤ s ≤ 6`, so this holds of every state the program
writes). -/
def splitsSixDigit (db : DB) : Prop :=
  ∀ t ∈ db.transactions, ∀ s ∈ t.splits, sixDigit (storedAmount s)

/-! ## Accounting lemmas for the delta maps -/

/-- Net delta that a change list assigns to account `g`. -/
def sumFor (g : Nat) (cs : List (Nat × ℚ)) : ℚ :=
  ((cs.filter (fun c => c.1 == g)).map (fun c => c.2)).sum

/-- Contribution of one transaction's splits to account `g`. -/
def txContrib (t : Tx) (g : Nat) : ℚ :=
  ((t.splits.filter (fun s => s.account_guid == g)).map storedAmount).sum

/-- Balance of the first account with guid `g` in a plain row list. -/
def lookupBalance (l : List Account) (g : Nat) : ℚ :=
  ((l.find? (fun a => a.guid == g)).map (fun a => a.current_balance)).getD 0

/-! ## Inversion lemmas for the ledger operations -/

/-- Input splits all within the codec's exact range (at most six
fractional digits). -/
def smallInput (data : TransactionCreate) : Prop :=
  ∀ sd ∈ data.splits, -6 ≤ sd.amount.exponent

/-- Amount bound for one operation (deletions carry no amounts). -/
def opSmall : Op → Prop
  | .post data => smallInput data
  | .update _ data => smallInput data
  | .delete _ => True

/-! ## Dates (`datetime.date`, `calendar.monthrange`) -/

/-- Gregorian leap-year rule. -/
def isLeapYear (y : Nat) : Bool :=
  y % 4 == 0 && (y % 100 != 0 || y % 400 == 0)

/-- `monthrange(y, m)[1]`: number of days in the month. -/
def daysInMonth (y m : Nat) : Nat :=
  if m = 2 then (if isLeapYear y then 29 else 28)
  else if m = 4 ∨ m = 6 ∨ m = 9 ∨ m = 11 then 30
  else 31

/-- `a <= b` on dates (lexicographic on year, month, day). -/
def dateLe (a b : Date) : Bool :=
  if a.year ≠ b.year then a.year < b.year
  else if a.month ≠ b.month then a.month < b.month
  else a.day ≤ b.day

/-- `target.replace(day=1)`. -/
def firstOfMonth (d : Date) : Date := { d with day := 1 }

/-! ## Recurring charge scheduler (`app/crud/fixed_expense.py`) -/

/-- The warnings emitted by `execute_fixed_expense` and
`_select_payment_account`, modelled structurally (the Python messages are
formatted strings carrying the same data). -/
inductive Warning where
  | inactive
  | notDue (dueDay : Nat)
  | nonPositiveAmount
  | primaryInsufficient (name : String) (balance : ℚ)
  | primaryNotConfigured
  | fallbackAlsoShort (name : String) (balance : ℚ)
  | fallbackNotConfigured
  | noPaymentAccount
  deriving DecidableEq, Repr

/-- `is_due(expense, target_date)`. -/
def is_due (e : FixedExpense) (target : Date) : Bool :=
  let month_start := firstOfMonth target
  if e.last_run_month = some month_start then false
  else
    let max_day := daysInMonth target.year target.month
    let due_day := min (max e.day_of_month 1) max_day
    let due_date : Date := { month_start with day := due_day }
    dateLe due_date target

/-- `_select_payment_account`: prefer the primary account when its balance
covers the amount, otherwise the fallback (with warnings); when no
fallback is configured the raw `primary_account_guid` column value is
returned. -/
def select_payment_account (db : DB) (e : FixedExpense) (amount : ℚ) :
    Option Nat × List Warning :=
  let primary := e.primary_account_guid.bind (fun g => findAccount db g)
  let fallback := e.fallback_account_guid.bind (fun g => findAccount db g)
  match primary with
  | some pa =>
      if amount ≤ pa.current_balance then (some pa.guid, [])
      else
        let ws := [Warning.primaryInsufficient pa.name pa.current_balance]
        match fallback with
        | some fa =>
            (some fa.guid,
             if fa.current_balance < amount then
               ws ++ [Warning.fallbackAlsoShort fa.name fa.current_balance]
             else ws)
        | none => (e.primary_account_guid, ws ++ [Warning.fallbackNotConfigured])
  | none =>
      let ws := [Warning.primaryNotConfigured]
      match fallback with
      | some fa =>
          (some fa.guid,
           if fa.current_balance < amount then
             ws ++ [Warning.fallbackAlsoShort fa.name fa.current_balance]
           else ws)
      | none => (e.primary_account_guid, ws ++ [Warning.fallbackNotConfigured])

/-- The two-split charge transaction posted by `execute_fixed_expense`
(debit the expense account, credit the paying account).  The formatted
description/memo strings carry the expense name; they are modelled by the
name itself. -/
def chargeTx (e : FixedExpense) (run_date : Date) (pay_guid : Nat) : TransactionCreate :=
  { post_date := run_date, description := some e.name, business_type := none,
    reference_no := none, num := none,
    splits := [
      { account_guid := e.expense_account_guid, amount := e.amount,
        memo := some e.name, cashflow_type_id := none },
      { account_guid := pay_guid, amount := e.amount.neg,
        memo := some e.name, cashflow_type_id := none } ] }

/-- `execute_fixed_expense(db, expense, run_date, force=force)`.  Returns
`(transaction guid?, warnings)` together with the updated session state
and expense row; a `ValueError` raised by the transaction layer propagates
and rolls the unit of work back. -/
def execute_fixed_expense (db : DB) (e : FixedExpense) (run_date : Date) (force : Bool) :
    Except LedgerError (Option Nat × List Warning × DB × FixedExpense) :=
  if !e.is_active then .ok (none, [Warning.inactive], db, e)
  else if !force && !is_due e run_date then
    .ok (none,
      [Warning.notDue (min e.day_of_month (daysInMonth run_date.year run_date.month))],
      db, e)
  else if e.amount.val ≤ 0 then .ok (none, [Warning.nonPositiveAmount], db, e)
  else
    match select_payment_account db e e.amount.val with
    | (none, ws) => .ok (none, ws ++ [Warning.noPaymentAccount], db, e)
    | (some pay_guid, ws) =>
        match post_transaction db (chargeTx e run_date pay_guid) with
        | .error err => .error err
        | .ok (db', tx) =>
            .ok (some tx.guid, ws, db',
                 { e with last_run_month := some (firstOfMonth run_date) })

/-! ## Account registry (`app/crud/account.py`) -/

/-- The optional fields accepted by `update_account` (`None` = leave the
field unchanged). -/
structure AccountUpdate where
  name : Option String
  account_type : Option String
  code : Option String
  parent_guid : Option Nat
  description : Option String
  hidden : Option Bool
  placeholder : Option Bool
  is_cash : Option Bool
  deriving DecidableEq, Repr

/-- `create_account`: reject duplicate names, validate the parent when
given, insert a zero-balance row under a fresh guid. -/
def create_account (db : DB) (name account_type : String) (code : Option String)
    (parent_guid : Option Nat) (description : Option String)
    (hidden placeholder is_cash : Bool) : Except LedgerError (DB × Account) :=
  if db.accounts.any (fun a => a.name == name) then .error (.duplicateName name)
  else
    let account : Account :=
      { guid := db.guidSeq, name := name, account_type := account_type,
        parent_guid := parent_guid, code := code, description := description,
        hidden := hidden, placeholder := placeholder, is_cash := is_cash,
        current_balance := 0 }
    match parent_guid with
    | some p =>
        if accountExists db p then
          .ok ({ db with accounts := db.accounts ++ [account],
                         guidSeq := db.guidSeq + 1 }, account)
        else .error (.parentNotFound p)
    | none =>
        .ok ({ db with accounts := db.accounts ++ [account],
                       guidSeq := db.guidSeq + 1 }, account)

/-- `update_account`: partial-field update.  A rename is checked against
other accounts' names; a new parent must not be the account itself and
must exist.  (The Python code skips the rename when the new name is empty
or unchanged; an empty-string parent id, which Python would assign
unchecked, has no counterpart in this model.) -/
def update_account (db : DB) (guid : Nat) (u : AccountUpdate) :
    Except LedgerError (DB × Account) :=
  match findAccount db guid with
  | none => .error (.accountNotFound guid)
  | some a0 =>
      match (match u.name with
             | some n =>
                 if n ≠ "" ∧ n ≠ a0.name then
                   if db.accounts.any (fun b => b.name == n && b.guid != guid) then
                     Except.error (LedgerError.duplicateName n)
                   else Except.ok (some n)
                 else Except.ok none
             | none => Except.ok none) with
      | .error e => .error e
      | .ok newName =>
          match (match u.parent_guid with
                 | some p =>
                     if p = guid then Except.error LedgerError.selfParent
                     else if accountExists db p then Except.ok (some p)
                     else Except.error (LedgerError.parentNotFound p)
                 | none => Except.ok none) with
          | .error e => .error e
          | .ok newParent =>
              let a1 : Account :=
                { a0 with
                  name := newName.getD a0.name,
                  parent_guid := (newParent.map some).getD a0.parent_guid,
                  account_type := u.account_type.getD a0.account_type,
                  code := u.code.or a0.code,
                  description := u.description.or a0.description,
                  hidden := u.hidden.getD a0.hidden,
                  placeholder := u.placeholder.getD a0.placeholder,
                  is_cash := u.is_cash.getD a0.is_cash }
              let accounts1 := db.accounts.map (fun b => if b.guid = guid then a1 else b)
              .ok ({ db with accounts := accounts1 }, a1)

/-- `delete_account`: refuse when children exist (naming them), when the
balance is non-zero, or when any split references the account; otherwise
remove the row. -/
def delete_account (db : DB) (guid : Nat) : Except LedgerError DB :=
  match findAccount db guid with
  | none => .error (.accountNotFound guid)
  | some a0 =>
      let children := db.accounts.filter (fun c => c.parent_guid == some guid)
      if children ≠ [] then .error (.hasChildren (children.map (fun c => c.name)))
      else if a0.current_balance ≠ 0 then .error (.nonzeroBalance a0.current_balance)
      else if (splitsOf db).any (fun s => s.account_guid == guid) then
        .error .accountInUse
      else .ok { db with accounts := db.accounts.filter (fun c => c.guid ≠ guid) }

/-- One step up the parent chain. -/
def parentStep (db : DB) (g : Nat) : Option Nat :=
  (findAccount db g).bind (fun a => a.parent_guid)

/-- Follow parent links for `n` steps. -/
def followParent (db : DB) : Nat → Nat → Option Nat
  | g, 0 => some g
  | g, n + 1 => (parentStep db g).bind (fun p => followParent db p n)

/-- Some account can reach itself by following parent links. -/
def hasParentCycle (db : DB) : Bool :=
  db.accounts.any (fun a =>
    (List.range db.accounts.length).any
      (fun k => followParent db a.guid (k + 1) == some a.guid))

/-! ## Cash-flow statement (`app/crud/financial_report.py`)

The SQL query inner-joins splits in the period to their cash-flow type and
groups by type, summing `value_num / value_denom` per type; the Python
loop then adds the absolute value of each per-type sum to its
(flow category, direction) bucket.  The query also orders rows by
`(sort_order, id)`; the ordering permutes only the item lists and no
aggregated total, so rows are produced here in stored-table order.
The source additionally queries the active cash-flow types up front
(`CashflowType.is_active == True`) but never uses the result in the
aggregation. -/

/-- One per-item entry of a statement section. -/
structure CashflowItem where
  category_name : String
  cashflow_type_id : Nat
  direction : Direction
  amount : ℚ
  deriving DecidableEq, Repr

/-- One of the operating / investing / financing sections. -/
structure CashflowSection where
  item_list : List CashflowItem
  inflow : ℚ
  outflow : ℚ
  net : ℚ
  deriving DecidableEq, Repr

/-- The generated statement. -/
structure CashflowStatement where
  start_date : Date
  end_date : Date
  operating : CashflowSection
  investing : CashflowSection
  financing : CashflowSection
  total_net : ℚ
  deriving DecidableEq, Repr

/-- Splits of transactions posted within `[s, e]`. -/
def splitsInPeriod (db : DB) (s e : Date) : List Split :=
  (db.transactions.filter
    (fun t => dateLe s t.post_date && dateLe t.post_date e)).flatMap
      (fun t => t.splits)

/-- One row of the grouped query: a cash-flow type together with the sum
of the signed amounts of its splits in the period. -/
structure CfRow where
  flow_type : FlowType
  direction : Direction
  category_name : String
  cashflow_type_id : Nat
  amount : ℚ
  deriving DecidableEq, Repr

/-- The row the grouped query produces for one cash-flow type, if any
split in the period is tagged with it (inner join). -/
def cashflowRowFor (db : DB) (s e : Date) (ct : CashflowType) : Option CfRow :=
  let ms := (splitsInPeriod db s e).filter
    (fun sp => sp.cashflow_type_id == some ct.id)
  if ms.isEmpty then none
  else some { flow_type := ct.flow_type, direction := ct.direction,
              category_name := ct.name, cashflow_type_id := ct.id,
              amount := (ms.map storedAmount).sum }

/-- The grouped rows (inner join: types without a matching split in the
period produce no row). -/
def cashflowRows (db : DB) (s e : Date) : List CfRow :=
  db.cashflow_types.filterMap (cashflowRowFor db s e)

/-- The item the Python loop appends for a row. -/
def cfItem (r : CfRow) : CashflowItem :=
  { category_name := r.category_name, cashflow_type_id := r.cashflow_type_id,
    direction := r.direction, amount := |r.amount| }

/-- Accumulate the rows of one flow category into a section: each row's
`abs(amount)` is added to its direction's total, `net = inflow - outflow`. -/
def sectionFor (rows : List CfRow) (ft : FlowType) : CashflowSection :=
  let frows := rows.filter (fun r => r.flow_type == ft)
  let inflow :=
    ((frows.filter (fun r => r.direction == Direction.INFLOW)).map
      (fun r => |r.amount|)).sum
  let outflow :=
    ((frows.filter (fun r => r.direction == Direction.OUTFLOW)).map
      (fun r => |r.amount|)).sum
  { item_list := frows.map cfItem, inflow := inflow, outflow := outflow,
    net := inflow - outflow }

/-- `generate_cashflow_statement(db, start_date, end_date)` (explicit
period; the Python defaults fill in today / start of year). -/
def generate_cashflow_statement (db : DB) (start_date end_date : Date) :
    CashflowStatement :=
  let rows := cashflowRows db start_date end_date
  let operating := sectionFor rows FlowType.OPERATING
  let investing := sectionFor rows FlowType.INVESTING
  let financing := sectionFor rows FlowType.FINANCING
  { start_date := start_date, end_date := end_date, operating := operating,
    investing := investing, financing := financing,
    total_net := operating.net + investing.net + financing.net }

/-- Modelled from the spec: "each group sums absolute amounts" — the total
the spec's wording assigns to one (flow category, direction) group, namely
the sum of the absolute amounts of the individual splits in the period
tagged with a type of that category and direction. -/
def cashflow_spec_group_sum (db : DB) (s e : Date) (ft : FlowType)
    (dir : Direction) : ℚ :=
  (((splitsInPeriod db s e).filter (fun sp =>
      db.cashflow_types.any (fun ct =>
        sp.cashflow_type_id == some ct.id && ct.flow_type == ft &&
          ct.direction == dir))).map (fun sp => |storedAmount sp|)).sum

/-- The per-type signed sum of split amounts in the period. -/
def typeSum (db : DB) (s e : Date) (ct : CashflowType) : ℚ :=
  (((splitsInPeriod db s e).filter
    (fun sp => sp.cashflow_type_id == some ct.id)).map storedAmount).sum

/-- Execution result of `execute_fixed_expense` with rollback semantics on
error: `(transaction guid?, warnings, session state, expense row)`. -/
def execResult (db : DB) (e : FixedExpense) (run_date : Date) (force : Bool) :
    Option Nat × List Warning × DB × FixedExpense :=
  match execute_fixed_expense db e run_date force with
  | .ok r => r
  | .error _ => (none, [], db, e)

set_option maxRecDepth 10000

instance (db : DB) : Decidable (balancedInv db) := by
  unfold balancedInv
  infer_instance

/-- Executable form of the balance invariant. -/
def balancedCheck (db : DB) : Bool :=
  db.accounts.all (fun a => a.current_balance == splitSumFor db a.guid)

instance (data : TransactionCreate) : Decidable (smallInput data) := by
  unfold smallInput
  infer_instance

instance (q : ℚ) : Decidable (sixDigit q) := by
  unfold sixDigit
  infer_instance

instance (db : DB) : Decidable (splitsSixDigit db) := by
  unfold splitsSixDigit
  infer_instance

/-! ## Fixtures for concrete evaluations -/
def acctFix (g : Nat) (nm : String) : Account :=
  { guid := g, name := nm, account_type := "ASSET", parent_guid := none,
    code := none, description := none, hidden := false, placeholder := false,
    is_cash := false, current_balance := 0 }

def dbC1 : DB :=
  { accounts := [acctFix 1 "A", acctFix 2 "B"], transactions := [],
    cashflow_types := [], guidSeq := 10 }

def mkSplitInput (g : Nat) (d : Dec) : SplitCreate :=
  { account_guid := g, amount := d, memo := none, cashflow_type_id := none }

def mkTxInput (splits : List SplitCreate) : TransactionCreate :=
  { post_date := ⟨2026, 1, 15⟩, description := none, business_type := none,
    reference_no := none, num := none, splits := splits }

/-- A seven-fractional-digit pair `(+0.0000005, -0.0000005)`: the input
sums to zero, but the stored fractions round to `±0.000001`. -/
def dataDeepPair : TransactionCreate :=
  mkTxInput [mkSplitInput 1 ⟨5, -7⟩, mkSplitInput 2 ⟨-5, -7⟩]

/-- A zero-sum input with two half-micro-unit splits on the same
account: `[(A, +0.0000005), (A, +0.0000005), (B, -0.000001)]`.  Each
stored fraction for `A` rounds up to `0.000001`, while the aggregated
balance delta for `A` is exactly `0.000001` — a value the
`Numeric(18, 6)` column stores unchanged at commit. -/
def dataC1dup : TransactionCreate :=
  mkTxInput [mkSplitInput 1 ⟨5, -7⟩, mkSplitInput 1 ⟨5, -7⟩,
             mkSplitInput 2 ⟨-1, -6⟩]

/-- A plain two-decimal pair `(+100.00, -100.00)`. -/
def dataC1flat : TransactionCreate :=
  mkTxInput [mkSplitInput 1 ⟨10000, -2⟩, mkSplitInput 2 ⟨-10000, -2⟩]

/-- Net signed input amount an update assigns to account `x`. -/
def inputSumFor (x : Nat) (data : TransactionCreate) : ℚ :=
  ((data.splits.filter (fun sd => sd.account_guid == x)).map
    (fun sd => sd.amount.val)).sum

/-- Stored amount the existing transaction's splits assign to account `x`. -/
def oldTxStoredSum (db : DB) (guid x : Nat) : ℚ :=
  match findTx db guid with
  | some t => txContrib t x
  | none => 0

def dbC3 : DB :=
  { accounts := [acctFix 1 "A", acctFix 2 "B", acctFix 3 "C"], transactions := [],
    cashflow_types := [], guidSeq := 20 }

def dataC3post : TransactionCreate :=
  mkTxInput [mkSplitInput 1 ⟨10000, -2⟩, mkSplitInput 2 ⟨-10000, -2⟩]

def dataC3upd : TransactionCreate :=
  mkTxInput [mkSplitInput 1 ⟨6000, -2⟩, mkSplitInput 3 ⟨-6000, -2⟩]

/-- A committed `(+1.00, -1.00)` transaction between accounts 1 and 2. -/
def txC3q : Tx :=
  { guid := 30, num := none, post_date := ⟨2026, 1, 5⟩, description := none,
    business_type := none, reference_no := none,
    splits := [
      { guid := 31, tx_guid := 30, account_guid := 1, memo := none,
        value_num := 100, value_denom := 100, cashflow_type_id := none },
      { guid := 32, tx_guid := 30, account_guid := 2, memo := none,
        value_num := -100, value_denom := 100, cashflow_type_id := none } ] }

/-- Committed state holding `txC3q`, with matching balances `1` / `-1`. -/
def dbC3q : DB :=
  { accounts := [{ acctFix 1 "A" with current_balance := 1 },
                 { acctFix 2 "B" with current_balance := -1 }],
    transactions := [txC3q], cashflow_types := [], guidSeq := 33 }

def dbC5 : DB :=
  { accounts := [acctFix 1 "A"], transactions := [], cashflow_types := [],
    guidSeq := 5 }

/-- State after `update_account`, with rollback on error. -/
def updateAccountResult (db : DB) (guid : Nat) (u : AccountUpdate) : DB :=
  match update_account db guid u with
  | .ok r => r.1
  | .error _ => db

/-- An update payload that only reparents. -/
def reparentTo (p : Nat) : AccountUpdate :=
  { name := none, account_type := none, code := none, parent_guid := some p,
    description := none, hidden := none, placeholder := none, is_cash := none }

def dbC6 : DB :=
  { accounts := [acctFix 1 "A", { acctFix 2 "B" with parent_guid := some 1 }],
    transactions := [], cashflow_types := [], guidSeq := 7 }

def expC7 : FixedExpense :=
  { id := 1, name := "rent", amount := ⟨5000, -2⟩, expense_account_guid := 1,
    primary_account_guid := some 2, fallback_account_guid := none,
    day_of_month := 30, is_active := true, last_run_month := none }

def dbC7 : DB :=
  { accounts := [acctFix 1 "Exp", acctFix 2 "Cash"], transactions := [],
    cashflow_types := [], guidSeq := 30 }

/-- What one (flow category, direction) bucket actually accumulates:
the absolute value of each matching type's signed per-type sum. -/
def dirTotal (db : DB) (s e : Date) (ft : FlowType) (dir : Direction) : ℚ :=
  ((db.cashflow_types.filter
      (fun ct => ct.flow_type == ft && ct.direction == dir)).map
    (fun ct => |typeSum db s e ct|)).sum

def ctC8 : CashflowType :=
  { id := 1, code := "OP1", name := "Sales", flow_type := FlowType.OPERATING,
    direction := Direction.INFLOW, is_active := true, sort_order := 1 }

def txC8 : Tx :=
  { guid := 40, num := none, post_date := ⟨2026, 1, 10⟩, description := none,
    business_type := none, reference_no := none,
    splits := [
      { guid := 41, tx_guid := 40, account_guid := 1, memo := none,
        value_num := 100, value_denom := 1, cashflow_type_id := some 1 },
      { guid := 42, tx_guid := 40, account_guid := 1, memo := none,
        value_num := -30, value_denom := 1, cashflow_type_id := some 1 } ] }

def dbC8 : DB :=
  { accounts := [acctFix 1 "Cash"], transactions := [txC8],
    cashflow_types := [ctC8], guidSeq := 50 }

/-- `f` may change a type's `is_active` flag (and nothing the statement
reads). -/
def preservesAllButActive (f : CashflowType → CashflowType) : Prop :=
  ∀ ct, (f ct).id = ct.id ∧ (f ct).flow_type = ct.flow_type ∧
    (f ct).direction = ct.direction ∧ (f ct).name = ct.name ∧
    (f ct).sort_order = ct.sort_order

/-- Flip a type's active flag. -/
def toggleActive (ct : CashflowType) : CashflowType :=
  { ct with is_active := !ct.is_active }

def expC9 : FixedExpense :=
  { id := 2, name := "power", amount := ⟨5000, -2⟩, expense_account_guid := 1,
    primary_account_guid := some 2, fallback_account_guid := none,
    day_of_month := 1, is_active := true, last_run_month := none }

/-! ## Theorems -/

theorem roundHalfUp_intCast (n : Int) : roundHalfUp (n : ℚ) = n := by
  have h1 : ⌊(n : ℚ) + 1/2⌋ = n := by
    rw [Int.floor_eq_iff]
    refine ⟨by linarith, ?_⟩
    norm_num
  have h2 : ⌊-(n : ℚ) + 1/2⌋ = -n := by
    rw [Int.floor_eq_iff]
    refine ⟨?_, ?_⟩ <;> push_cast <;> linarith
  by_cases h : (0 : ℚ) ≤ (n : ℚ)
  · rw [roundHalfUp, if_pos h, h1]
  · rw [roundHalfUp, if_neg h, h2, neg_neg]

/-- Unfolding lemma for the codec encoder. -/
theorem decimal_to_fraction_def (d : Dec) :
    decimal_to_fraction d =
      (roundHalfUp (d.val * (((10 : Int) ^ (min (max (-d.exponent) 2) 6).toNat : Int) : ℚ)),
       (10 : Int) ^ (min (max (-d.exponent) 2) 6).toNat) := rfl

theorem decimal_to_fraction_exact (d : Dec) (h : -6 ≤ d.exponent) :
    decimal_to_fraction d =
      (d.m * 10 ^ (d.exponent + min (max (-d.exponent) 2) 6).toNat,
       10 ^ (min (max (-d.exponent) 2) 6).toNat) := by
  rw [decimal_to_fraction_def]
  set s : Int := min (max (-d.exponent) 2) 6 with hs
  have hsle : -d.exponent ≤ s := by
    have h1 : -d.exponent ≤ max (-d.exponent) 2 := le_max_left _ _
    have h2 : max (-d.exponent) 2 ≤ 6 := by
      apply max_le
      · linarith
      · norm_num
    omega
  have hes : 0 ≤ d.exponent + s := by omega
  have hs0 : 0 ≤ s := by omega
  have hval : d.val * (((10 : Int) ^ s.toNat : Int) : ℚ) =
      ((d.m * 10 ^ (d.exponent + s).toNat : Int) : ℚ) := by
    unfold Dec.val
    push_cast
    rw [← zpow_natCast (10 : ℚ) s.toNat, ← zpow_natCast (10 : ℚ) (d.exponent + s).toNat,
        Int.toNat_of_nonneg hs0, Int.toNat_of_nonneg hes,
        zpow_add₀ (by norm_num : (10 : ℚ) ≠ 0)]
    ring
  rw [hval, roundHalfUp_intCast]

/-- Round-trip exactness of the codec for decimals with at most six
fractional digits. -/
theorem codecRoundtrip_eq_val (d : Dec) (h : -6 ≤ d.exponent) :
    codecRoundtrip d = d.val := by
  unfold codecRoundtrip
  rw [decimal_to_fraction_exact d h]
  unfold fraction_to_decimal
  set s : Int := min (max (-d.exponent) 2) 6 with hs
  have hs2 : 2 ≤ s := by
    have h1 : 2 ≤ max (-d.exponent) 2 := le_max_right _ _
    have h2 : max (-d.exponent) 2 ≤ 6 → 2 ≤ min (max (-d.exponent) 2) 6 := by omega
    have h3 : max (-d.exponent) 2 ≤ 6 := by
      apply max_le
      · linarith
      · norm_num
    omega
  have hsle : -d.exponent ≤ s := by
    have h1 : -d.exponent ≤ max (-d.exponent) 2 := le_max_left _ _
    have h3 : max (-d.exponent) 2 ≤ 6 := by
      apply max_le
      · linarith
      · norm_num
    omega
  have hes : 0 ≤ d.exponent + s := by omega
  have hs0 : 0 ≤ s := by omega
  have hne : ¬((10 : Int) ^ s.toNat = 0) := by positivity
  rw [if_neg hne]
  unfold Dec.val
  push_cast
  rw [← zpow_natCast (10 : ℚ) s.toNat, ← zpow_natCast (10 : ℚ) (d.exponent + s).toNat,
      Int.toNat_of_nonneg hs0, Int.toNat_of_nonneg hes]
  rw [zpow_add₀ (by norm_num : (10 : ℚ) ≠ 0)]
  field_simp
  ring

theorem balanceOf_eq_lookup (db : DB) (g : Nat) :
    balanceOf db g = lookupBalance db.accounts g := rfl

theorem sumFor_nil (g : Nat) : sumFor g [] = 0 := rfl

theorem sumFor_cons (g k : Nat) (v : ℚ) (cs : List (Nat × ℚ)) :
    sumFor g ((k, v) :: cs) = (if k = g then v else 0) + sumFor g cs := by
  by_cases h : k = g
  · simp [sumFor, List.filter_cons, h]
  · simp [sumFor, List.filter_cons, h]

theorem addChange_cons_eq (k : Nat) (w v : ℚ) (rest : List (Nat × ℚ)) :
    addChange ((k, w) :: rest) k v = (k, w + v) :: rest := by
  simp [addChange]

theorem addChange_cons_ne (k' k : Nat) (w v : ℚ) (rest : List (Nat × ℚ))
    (hk : k' ≠ k) :
    addChange ((k', w) :: rest) k v = (k', w) :: addChange rest k v := by
  simp [addChange, hk]

theorem sumFor_addChange (g k : Nat) (v : ℚ) (cs : List (Nat × ℚ)) :
    sumFor g (addChange cs k v) = sumFor g cs + (if k = g then v else 0) := by
  induction cs with
  | nil =>
      show sumFor g [(k, v)] = sumFor g [] + (if k = g then v else 0)
      rw [sumFor_cons, sumFor_nil]
      ring
  | cons c rest ih =>
      obtain ⟨k', w⟩ := c
      by_cases hk : k' = k
      · subst hk
        rw [addChange_cons_eq, sumFor_cons, sumFor_cons]
        by_cases hg : k' = g <;> simp [hg] <;> ring
      · rw [addChange_cons_ne k' k w v rest hk, sumFor_cons, sumFor_cons, ih]
        ring

theorem mem_keys_addChange (x k : Nat) (v : ℚ) (cs : List (Nat × ℚ)) :
    x ∈ (addChange cs k v).map (fun c => c.1) ↔
      x = k ∨ x ∈ cs.map (fun c => c.1) := by
  induction cs with
  | nil => simp [addChange]
  | cons c rest ih =>
      obtain ⟨k', w⟩ := c
      by_cases hk : k' = k
      · subst hk
        rw [addChange_cons_eq]
        simp
      · rw [addChange_cons_ne k' k w v rest hk]
        simp only [List.map_cons, List.mem_cons] at *
        rw [ih]
        tauto

theorem sumFor_buildChanges (g : Nat) (l : List SplitCreate) :
    sumFor g (buildChanges l) =
      ((l.filter (fun sd => sd.account_guid == g)).map (fun sd => sd.amount.val)).sum := by
  suffices h : ∀ cs : List (Nat × ℚ),
      sumFor g (l.foldl (fun cs sd => addChange cs sd.account_guid sd.amount.val) cs) =
        sumFor g cs +
          ((l.filter (fun sd => sd.account_guid == g)).map (fun sd => sd.amount.val)).sum by
    have := h []
    simpa [buildChanges, sumFor_nil] using this
  induction l with
  | nil => simp
  | cons sd rest ih =>
      intro cs
      by_cases hg : sd.account_guid = g
      · simp [List.foldl_cons, ih, sumFor_addChange, hg, List.filter_cons]
        ring
      · simp [List.foldl_cons, ih, sumFor_addChange, hg, List.filter_cons]

theorem sumFor_buildRevertChanges (g : Nat) (l : List Split) :
    sumFor g (buildRevertChanges l) =
      -(((l.filter (fun s => s.account_guid == g)).map storedAmount).sum) := by
  suffices h : ∀ cs : List (Nat × ℚ),
      sumFor g (l.foldl (fun cs s => addChange cs s.account_guid (-storedAmount s)) cs) =
        sumFor g cs - ((l.filter (fun s => s.account_guid == g)).map storedAmount).sum by
    have := h []
    simpa [buildRevertChanges, sumFor_nil] using this
  induction l with
  | nil => simp
  | cons s rest ih =>
      intro cs
      by_cases hg : s.account_guid = g
      · simp [List.foldl_cons, ih, sumFor_addChange, hg, List.filter_cons]
        ring
      · simp [List.foldl_cons, ih, sumFor_addChange, hg, List.filter_cons]

theorem mem_keys_buildChanges (x : Nat) (l : List SplitCreate) :
    x ∈ (buildChanges l).map (fun c => c.1) ↔ ∃ sd ∈ l, sd.account_guid = x := by
  suffices h : ∀ cs : List (Nat × ℚ),
      (x ∈ (l.foldl (fun cs sd => addChange cs sd.account_guid sd.amount.val) cs).map
          (fun c => c.1) ↔
        x ∈ cs.map (fun c => c.1) ∨ ∃ sd ∈ l, sd.account_guid = x) by
    have := h []
    simpa [buildChanges] using this
  induction l with
  | nil => simp
  | cons sd rest ih =>
      intro cs
      rw [List.foldl_cons, ih, mem_keys_addChange]
      simp only [List.exists_mem_cons_iff]
      tauto

theorem mem_keys_buildRevertChanges (x : Nat) (l : List Split) :
    x ∈ (buildRevertChanges l).map (fun c => c.1) ↔ ∃ s ∈ l, s.account_guid = x := by
  suffices h : ∀ cs : List (Nat × ℚ),
      (x ∈ (l.foldl (fun cs s => addChange cs s.account_guid (-storedAmount s)) cs).map
          (fun c => c.1) ↔
        x ∈ cs.map (fun c => c.1) ∨ ∃ s ∈ l, s.account_guid = x) by
    have := h []
    simpa [buildRevertChanges] using this
  induction l with
  | nil => simp
  | cons s rest ih =>
      intro cs
      rw [List.foldl_cons, ih, mem_keys_addChange]
      simp only [List.exists_mem_cons_iff]
      tauto

/-! ## Balance-update lemmas -/
theorem applyDelta_guids (l : List Account) (g : Nat) (v : ℚ) (l' : List Account)
    (h : applyDelta l g v = some l') :
    l'.map (fun a => a.guid) = l.map (fun a => a.guid) := by
  induction l generalizing l' with
  | nil => simp [applyDelta] at h
  | cons a rest ih =>
      by_cases ha : a.guid = g
      · rw [applyDelta, if_pos ha] at h
        cases h
        simp [bumpBalance]
      · rw [applyDelta, if_neg ha] at h
        cases hrest : applyDelta rest g v with
        | none => rw [hrest] at h; simp at h
        | some rest' =>
            rw [hrest] at h
            simp at h
            subst h
            simp [ih rest' hrest]

theorem applyDelta_isSome (l : List Account) (g : Nat) (v : ℚ) :
    (applyDelta l g v).isSome = true ↔ g ∈ l.map (fun a => a.guid) := by
  induction l with
  | nil => simp [applyDelta]
  | cons a rest ih =>
      by_cases ha : a.guid = g
      · simp [applyDelta, ha]
      · rw [applyDelta, if_neg ha]
        simp only [List.map_cons, List.mem_cons]
        rw [← ih]
        cases applyDelta rest g v <;> simp <;> tauto

theorem applyDelta_lookup (l : List Account) (g : Nat) (v : ℚ) (l' : List Account)
    (x : Nat) (h : applyDelta l g v = some l') :
    lookupBalance l' x = lookupBalance l x + (if g = x then v else 0) := by
  induction l generalizing l' with
  | nil => simp [applyDelta] at h
  | cons a rest ih =>
      by_cases ha : a.guid = g
      · rw [applyDelta, if_pos ha] at h
        cases h
        by_cases hx : a.guid = x
        · have hgx : g = x := by rw [← ha, hx]
          simp [lookupBalance, List.find?_cons, bumpBalance, hx, hgx]
        · have hgx : ¬(g = x) := fun hc => hx (ha.trans hc)
          simp [lookupBalance, List.find?_cons, bumpBalance, hx, hgx]
      · rw [applyDelta, if_neg ha] at h
        cases hrest : applyDelta rest g v with
        | none => rw [hrest] at h; simp at h
        | some rest' =>
            rw [hrest] at h
            simp at h
            subst h
            by_cases hx : a.guid = x
            · have hgx : ¬(g = x) := fun hc => ha (hx.trans hc.symm)
              simp [lookupBalance, List.find?_cons, hx, hgx]
            · simpa [lookupBalance, List.find?_cons, hx] using ih rest' hrest

theorem apply_balance_changes_guids (l : List Account) (cs : List (Nat × ℚ))
    (l' : List Account) (h : apply_balance_changes l cs = .ok l') :
    l'.map (fun a => a.guid) = l.map (fun a => a.guid) := by
  induction cs generalizing l with
  | nil =>
      rw [apply_balance_changes] at h
      cases h
      rfl
  | cons c rest ih =>
      obtain ⟨g, v⟩ := c
      rw [apply_balance_changes] at h
      cases hd : applyDelta l g v with
      | none => rw [hd] at h; cases h
      | some l1 =>
          rw [hd] at h
          exact (ih l1 h).trans (applyDelta_guids l g v l1 hd)

theorem apply_balance_changes_lookup (l : List Account) (cs : List (Nat × ℚ))
    (l' : List Account) (x : Nat) (h : apply_balance_changes l cs = .ok l') :
    lookupBalance l' x = lookupBalance l x + sumFor x cs := by
  induction cs generalizing l with
  | nil =>
      rw [apply_balance_changes] at h
      cases h
      rw [sumFor_nil, add_zero]
  | cons c rest ih =>
      obtain ⟨g, v⟩ := c
      rw [apply_balance_changes] at h
      cases hd : applyDelta l g v with
      | none => rw [hd] at h; cases h
      | some l1 =>
          rw [hd] at h
          rw [ih l1 h, applyDelta_lookup l g v l1 x hd, sumFor_cons]
          ring

theorem apply_balance_changes_ok_iff (l : List Account) (cs : List (Nat × ℚ)) :
    (∃ l', apply_balance_changes l cs = .ok l') ↔
      ∀ c ∈ cs, c.1 ∈ l.map (fun a => a.guid) := by
  induction cs generalizing l with
  | nil => simp [apply_balance_changes]
  | cons c rest ih =>
      obtain ⟨g, v⟩ := c
      rw [apply_balance_changes]
      cases hd : applyDelta l g v with
      | none =>
          have hg : ¬(g ∈ l.map (fun a => a.guid)) := by
            rw [← applyDelta_isSome l g v, hd]
            simp
          simp only [List.mem_cons]
          constructor
          · rintro ⟨l', hl'⟩
            cases hl'
          · intro hall
            exact absurd (hall (g, v) (by simp)) hg
      | some l1 =>
          have hg : g ∈ l.map (fun a => a.guid) := by
            rw [← applyDelta_isSome l g v, hd]
            rfl
          rw [ih l1]
          have hguids := applyDelta_guids l g v l1 hd
          rw [hguids]
          constructor
          · intro hall c hc
            rcases List.mem_cons.mp hc with hc1 | hc2
            · subst hc1; exact hg
            · exact hall c hc2
          · intro hall c hc
            exact hall c (List.mem_cons_of_mem _ hc)

theorem bumpBalance_zero (a : Account) : bumpBalance a 0 = a := by
  cases a
  simp [bumpBalance]

theorem bumpBalance_bumpBalance (a : Account) (v w : ℚ) :
    bumpBalance (bumpBalance a v) w = bumpBalance a (v + w) := by
  cases a
  simp [bumpBalance, add_assoc]

theorem bumpBalance_guid (a : Account) (v : ℚ) : (bumpBalance a v).guid = a.guid := rfl

theorem map_bump_guard_id (l : List Account) (g : Nat) (v : ℚ)
    (h : ∀ a ∈ l, a.guid ≠ g) :
    l.map (fun a => if a.guid = g then bumpBalance a v else a) = l := by
  induction l with
  | nil => rfl
  | cons a rest ih =>
      rw [List.map_cons, if_neg (h a (by simp)), ih (fun b hb => h b (by simp [hb]))]

theorem applyDelta_eq_map (l : List Account) (g : Nat) (v : ℚ) (l' : List Account)
    (hnd : (l.map (fun a => a.guid)).Nodup) (h : applyDelta l g v = some l') :
    l' = l.map (fun a => if a.guid = g then bumpBalance a v else a) := by
  induction l generalizing l' with
  | nil => simp [applyDelta] at h
  | cons a rest ih =>
      rw [List.map_cons, List.nodup_cons] at hnd
      by_cases ha : a.guid = g
      · rw [applyDelta, if_pos ha] at h
        cases h
        rw [List.map_cons, if_pos ha]
        have hrest : ∀ b ∈ rest, b.guid ≠ g := by
          intro b hb hc
          exact hnd.1 (by
            rw [ha, ← hc]
            exact List.mem_map_of_mem (fun x => x.guid) hb)
        rw [map_bump_guard_id rest g v hrest]
      · rw [applyDelta, if_neg ha] at h
        cases hrest : applyDelta rest g v with
        | none => rw [hrest] at h; simp at h
        | some rest' =>
            rw [hrest] at h
            simp at h
            subst h
            rw [List.map_cons, if_neg ha, ih rest' hnd.2 hrest]

theorem apply_balance_changes_eq_map (cs : List (Nat × ℚ)) :
    ∀ l l' : List Account, (l.map (fun a => a.guid)).Nodup →
      apply_balance_changes l cs = .ok l' →
      l' = l.map (fun a => bumpBalance a (sumFor a.guid cs)) := by
  induction cs with
  | nil =>
      intro l l' _ h
      rw [apply_balance_changes] at h
      cases h
      have hall : ∀ a ∈ l, bumpBalance a (sumFor a.guid []) = a := by
        intro a _
        rw [sumFor_nil, bumpBalance_zero]
      rw [List.map_congr_left hall]
      simp
  | cons c rest ih =>
      obtain ⟨g, v⟩ := c
      intro l l' hnd h
      rw [apply_balance_changes] at h
      cases hd : applyDelta l g v with
      | none => rw [hd] at h; cases h
      | some l1 =>
          rw [hd] at h
          have hguids := applyDelta_guids l g v l1 hd
          have hnd1 : (l1.map (fun a => a.guid)).Nodup := by rw [hguids]; exact hnd
          have h1 := applyDelta_eq_map l g v l1 hnd hd
          rw [ih l1 l' hnd1 h, h1, List.map_map]
          apply List.map_congr_left
          intro a _
          by_cases ha : a.guid = g
          · simp only [Function.comp_apply]
            rw [if_pos ha, bumpBalance_guid, bumpBalance_bumpBalance, sumFor_cons,
              if_pos ha.symm]
          · simp only [Function.comp_apply]
            rw [if_neg ha, sumFor_cons, if_neg (fun hc : g = a.guid => ha hc.symm),
              zero_add]

/-! ## Split-sum lemmas -/
theorem storedAmount_mkSplit (txG seq : Nat) (sd : SplitCreate) :
    storedAmount
      { guid := seq, tx_guid := txG, account_guid := sd.account_guid,
        memo := sd.memo,
        value_num := (decimal_to_fraction sd.amount).1,
        value_denom := (decimal_to_fraction sd.amount).2,
        cashflow_type_id := sd.cashflow_type_id } = codecRoundtrip sd.amount := rfl

theorem txContrib_mkSplits (txG seq : Nat) (l : List SplitCreate) (g : Nat) :
    (((mkSplits txG seq l).filter (fun s => s.account_guid == g)).map storedAmount).sum =
      ((l.filter (fun sd => sd.account_guid == g)).map
        (fun sd => codecRoundtrip sd.amount)).sum := by
  induction l generalizing seq with
  | nil => rfl
  | cons sd rest ih =>
      rw [mkSplits]
      by_cases hg : sd.account_guid = g
      · simp only [List.filter_cons, hg, beq_self_eq_true, if_true, List.map_cons,
          List.sum_cons]
        rw [ih (seq + 1)]
        rfl
      · have hbg : (sd.account_guid == g) = false := by simp [hg]
        simp only [List.filter_cons, hbg, Bool.false_eq_true, if_false]
        exact ih (seq + 1)

theorem mkSplits_length (txG seq : Nat) (l : List SplitCreate) :
    (mkSplits txG seq l).length = l.length := by
  induction l generalizing seq with
  | nil => rfl
  | cons sd rest ih =>
      rw [mkSplits, List.length_cons, List.length_cons, ih (seq + 1)]

/-- Correspondence between input splits and the split rows built for them. -/
theorem mkSplits_forall₂ (txG seq : Nat) (l : List SplitCreate) :
    List.Forall₂
      (fun (sd : SplitCreate) (s : Split) =>
        s.account_guid = sd.account_guid ∧ s.tx_guid = txG ∧
        (s.value_num, s.value_denom) = decimal_to_fraction sd.amount)
      l (mkSplits txG seq l) := by
  induction l generalizing seq with
  | nil => exact List.Forall₂.nil
  | cons sd rest ih =>
      rw [mkSplits]
      exact List.Forall₂.cons ⟨rfl, rfl, rfl⟩ (ih (seq + 1))

theorem splitSumFor_eq_sum_txContrib (db : DB) (g : Nat) :
    splitSumFor db g = (db.transactions.map (fun t => txContrib t g)).sum := by
  unfold splitSumFor splitsOf
  induction db.transactions with
  | nil => rfl
  | cons t rest ih =>
      rw [List.flatMap_cons, List.filter_append, List.map_append, List.sum_append, ih,
        List.map_cons, List.sum_cons]
      rfl

theorem map_replace_guard_id (rest : List Tx) (guid : Nat) (newTx : Tx)
    (h : ∀ u ∈ rest, u.guid ≠ guid) :
    rest.map (fun t => if t.guid = guid then newTx else t) = rest := by
  induction rest with
  | nil => rfl
  | cons t rs ih =>
      rw [List.map_cons, if_neg (h t (by simp)), ih (fun u hu => h u (by simp [hu]))]

theorem filter_ne_guard_id (rest : List Tx) (guid : Nat)
    (h : ∀ u ∈ rest, u.guid ≠ guid) :
    rest.filter (fun t => t.guid ≠ guid) = rest := by
  induction rest with
  | nil => rfl
  | cons t rs ih =>
      rw [List.filter_cons, if_pos (by simpa using h t (by simp)),
        ih (fun u hu => h u (by simp [hu]))]

theorem sum_txContrib_replace (ts : List Tx) (guid : Nat) (t0 newTx : Tx) (g : Nat)
    (hnd : (ts.map (fun t => t.guid)).Nodup)
    (hf : ts.find? (fun t => t.guid == guid) = some t0) :
    ((ts.map (fun t => if t.guid = guid then newTx else t)).map
        (fun t => txContrib t g)).sum =
      (ts.map (fun t => txContrib t g)).sum - txContrib t0 g + txContrib newTx g := by
  induction ts with
  | nil => simp [List.find?] at hf
  | cons t rest ih =>
      rw [List.map_cons, List.nodup_cons] at hnd
      by_cases ht : t.guid = guid
      · rw [List.find?_cons_of_pos _ (by simp [ht])] at hf
        cases hf
        have hrest : ∀ u ∈ rest, u.guid ≠ guid := by
          intro u hu hc
          exact hnd.1 (by rw [ht, ← hc]; exact List.mem_map_of_mem _ hu)
        rw [List.map_cons, if_pos ht, map_replace_guard_id rest guid newTx hrest,
          List.map_cons, List.sum_cons, List.map_cons, List.sum_cons]
        ring
      · rw [List.find?_cons_of_neg _ (by simp [ht])] at hf
        rw [List.map_cons, if_neg ht, List.map_cons, List.sum_cons, List.map_cons,
          List.sum_cons, ih hnd.2 hf]
        ring

theorem sum_txContrib_filter (ts : List Tx) (guid : Nat) (t0 : Tx) (g : Nat)
    (hnd : (ts.map (fun t => t.guid)).Nodup)
    (hf : ts.find? (fun t => t.guid == guid) = some t0) :
    ((ts.filter (fun t => t.guid ≠ guid)).map (fun t => txContrib t g)).sum =
      (ts.map (fun t => txContrib t g)).sum - txContrib t0 g := by
  induction ts with
  | nil => simp [List.find?] at hf
  | cons t rest ih =>
      rw [List.map_cons, List.nodup_cons] at hnd
      by_cases ht : t.guid = guid
      · rw [List.find?_cons_of_pos _ (by simp [ht])] at hf
        cases hf
        have hrest : ∀ u ∈ rest, u.guid ≠ guid := by
          intro u hu hc
          exact hnd.1 (by rw [ht, ← hc]; exact List.mem_map_of_mem _ hu)
        rw [List.filter_cons, if_neg (by simp [ht]), filter_ne_guard_id rest guid hrest,
          List.map_cons, List.sum_cons]
        ring
      · rw [List.find?_cons_of_neg _ (by simp [ht])] at hf
        rw [List.filter_cons, if_pos (by simp [ht]), List.map_cons, List.sum_cons,
          List.map_cons, List.sum_cons, ih hnd.2 hf]
        ring

theorem post_transaction_ok_inv (db : DB) (data : TransactionCreate) (db' : DB) (tx : Tx)
    (h : post_transaction db data = .ok (db', tx)) :
    ∃ accounts1,
      ensure_double_entry data = .ok () ∧
      apply_balance_changes db.accounts (buildChanges data.splits) = .ok accounts1 ∧
      tx = mkTxOf db data ∧
      db' = { db with accounts := accounts1,
                      transactions := db.transactions ++ [mkTxOf db data],
                      guidSeq := db.guidSeq + 1 + data.splits.length } := by
  unfold post_transaction at h
  split at h
  · cases h
  · next u hv =>
      unfold create_transaction at h
      split at h
      · cases h
      · next accounts1 hab =>
          injection h with h1
          obtain ⟨h2, h3⟩ := Prod.mk.injEq .. ▸ h1
          exact ⟨accounts1, by cases u; exact hv, hab, h3.symm, h2.symm⟩

theorem update_transaction_ok_inv (db : DB) (guid : Nat) (data : TransactionCreate)
    (db' : DB) (tx : Tx) (h : update_transaction db guid data = .ok (db', tx)) :
    ∃ t0 accounts1 accounts2,
      ensure_double_entry data = .ok () ∧
      findTx db guid = some t0 ∧
      apply_balance_changes db.accounts (buildRevertChanges t0.splits) = .ok accounts1 ∧
      apply_balance_changes accounts1 (buildChanges data.splits) = .ok accounts2 ∧
      tx = updatedTxOf t0 db data ∧
      db' = { db with accounts := accounts2,
                      transactions := db.transactions.map
                        (fun t => if t.guid = guid then updatedTxOf t0 db data else t),
                      guidSeq := db.guidSeq + data.splits.length } := by
  unfold update_transaction at h
  split at h
  · cases h
  · next u hv =>
      split at h
      · cases h
      · next t0 hf =>
          split at h
          · cases h
          · next accounts1 hab1 =>
              split at h
              · cases h
              · next accounts2 hab2 =>
                  injection h with h1
                  obtain ⟨h2, h3⟩ := Prod.mk.injEq .. ▸ h1
                  exact ⟨t0, accounts1, accounts2, by cases u; exact hv, hf, hab1, hab2,
                    h3.symm, h2.symm⟩

theorem delete_transaction_ok_inv (db : DB) (guid : Nat) (db' : DB)
    (h : delete_transaction db guid = .ok db') :
    ∃ t0 accounts1,
      findTx db guid = some t0 ∧
      apply_balance_changes db.accounts (buildRevertChanges t0.splits) = .ok accounts1 ∧
      db' = { db with accounts := accounts1,
                      transactions := db.transactions.filter (fun t => t.guid ≠ guid) } := by
  unfold delete_transaction at h
  split at h
  · cases h
  · next t0 hf =>
      split at h
      · cases h
      · next accounts1 hab =>
          injection h with h1
          exact ⟨t0, accounts1, hf, hab, h1.symm⟩

/-! ## Preservation of well-formedness and the balance invariant -/
theorem txContrib_mkSplits_small (t : Tx) (txG seq : Nat) (l : List SplitCreate)
    (g : Nat) (hsplits : t.splits = mkSplits txG seq l)
    (hsmall : ∀ sd ∈ l, -6 ≤ sd.amount.exponent) :
    txContrib t g = sumFor g (buildChanges l) := by
  unfold txContrib
  rw [hsplits, txContrib_mkSplits, sumFor_buildChanges]
  exact congrArg List.sum (List.map_congr_left (fun sd hsd =>
    codecRoundtrip_eq_val sd.amount (hsmall sd (List.mem_of_mem_filter hsd))))

theorem sumFor_revert_eq (t0 : Tx) (g : Nat) :
    sumFor g (buildRevertChanges t0.splits) = -txContrib t0 g := by
  rw [sumFor_buildRevertChanges]
  rfl

theorem WF_post (db : DB) (data : TransactionCreate) (db' : DB) (tx : Tx)
    (hwf : WF db) (hsmall : smallInput data)
    (h : post_transaction db data = .ok (db', tx)) : WF db' := by
  obtain ⟨accounts1, hv, hab, htx, hdb⟩ := post_transaction_ok_inv db data db' tx h
  subst hdb
  have hguids := apply_balance_changes_guids db.accounts _ accounts1 hab
  have hmap := apply_balance_changes_eq_map _ db.accounts accounts1 hwf.acctNodup hab
  constructor
  · show (accounts1.map (fun a => a.guid)).Nodup
    rw [hguids]
    exact hwf.acctNodup
  · show ((db.transactions ++ [mkTxOf db data]).map (fun t => t.guid)).Nodup
    rw [List.map_append, List.nodup_append]
    refine ⟨hwf.txNodup, by simp, ?_⟩
    intro x hx hx2
    obtain ⟨t, ht, rfl⟩ := List.mem_map.mp hx
    have hb := hwf.txBound t ht
    have : (mkTxOf db data).guid = db.guidSeq := rfl
    simp only [List.map_cons, List.map_nil, List.mem_cons, List.not_mem_nil,
      or_false, this] at hx2
    omega
  · intro t ht
    show t.guid < db.guidSeq + 1 + data.splits.length
    rcases List.mem_append.mp ht with h1 | h2
    · have := hwf.txBound t h1
      omega
    · have h3 : t = mkTxOf db data := by simpa using h2
      subst h3
      have : (mkTxOf db data).guid = db.guidSeq := rfl
      omega
  · intro a ha
    replace ha : a ∈ accounts1 := ha
    rw [hmap] at ha
    obtain ⟨a0, ha0, rfl⟩ := List.mem_map.mp ha
    show a0.current_balance + sumFor a0.guid (buildChanges data.splits) =
      splitSumFor _ (bumpBalance a0 _).guid
    rw [bumpBalance_guid, splitSumFor_eq_sum_txContrib]
    show _ = ((db.transactions ++ [mkTxOf db data]).map (fun t => txContrib t a0.guid)).sum
    rw [List.map_append, List.sum_append, ← splitSumFor_eq_sum_txContrib db a0.guid]
    simp only [List.map_cons, List.map_nil, List.sum_cons, List.sum_nil, add_zero]
    rw [txContrib_mkSplits_small (mkTxOf db data) db.guidSeq (db.guidSeq + 1)
      data.splits a0.guid rfl hsmall]
    rw [hwf.balanced a0 ha0]

theorem WF_update (db : DB) (guid : Nat) (data : TransactionCreate) (db' : DB) (tx : Tx)
    (hwf : WF db) (hsmall : smallInput data)
    (h : update_transaction db guid data = .ok (db', tx)) : WF db' := by
  obtain ⟨t0, accounts1, accounts2, hv, hf, hab1, hab2, htx, hdb⟩ :=
    update_transaction_ok_inv db guid data db' tx h
  subst hdb
  have ht0g : t0.guid = guid := by
    have := List.find?_some hf
    simpa using this
  have hguids1 := apply_balance_changes_guids db.accounts _ accounts1 hab1
  have hnd1 : (accounts1.map (fun a => a.guid)).Nodup := by
    rw [hguids1]; exact hwf.acctNodup
  have hguids2 := apply_balance_changes_guids accounts1 _ accounts2 hab2
  have hmap1 := apply_balance_changes_eq_map _ db.accounts accounts1 hwf.acctNodup hab1
  have hmap2 := apply_balance_changes_eq_map _ accounts1 accounts2 hnd1 hab2
  have hguid_pres : ∀ t : Tx,
      (if t.guid = guid then updatedTxOf t0 db data else t).guid = t.guid := by
    intro t
    by_cases hg : t.guid = guid
    · rw [if_pos hg]
      show t0.guid = t.guid
      rw [ht0g, hg]
    · rw [if_neg hg]
  have htxguids : (db.transactions.map
      (fun t => if t.guid = guid then updatedTxOf t0 db data else t)).map
        (fun t => t.guid) = db.transactions.map (fun t => t.guid) := by
    rw [List.map_map]
    exact List.map_congr_left (fun t _ => hguid_pres t)
  constructor
  · show (accounts2.map (fun a => a.guid)).Nodup
    rw [hguids2]
    exact hnd1
  · show ((db.transactions.map
        (fun t => if t.guid = guid then updatedTxOf t0 db data else t)).map
          (fun t => t.guid)).Nodup
    rw [htxguids]
    exact hwf.txNodup
  · intro t ht
    show t.guid < db.guidSeq + data.splits.length
    obtain ⟨u, hu, rfl⟩ := List.mem_map.mp ht
    rw [hguid_pres u]
    have := hwf.txBound u hu
    omega
  · intro a ha
    replace ha : a ∈ accounts2 := ha
    rw [hmap2] at ha
    obtain ⟨a1, ha1, rfl⟩ := List.mem_map.mp ha
    rw [hmap1] at ha1
    obtain ⟨a0, ha0, rfl⟩ := List.mem_map.mp ha1
    show a0.current_balance + sumFor a0.guid (buildRevertChanges t0.splits) +
        sumFor (bumpBalance a0 _).guid (buildChanges data.splits) =
      splitSumFor _ ((bumpBalance (bumpBalance a0 _) _).guid)
    rw [bumpBalance_guid, bumpBalance_guid, splitSumFor_eq_sum_txContrib]
    show _ = ((db.transactions.map
      (fun t => if t.guid = guid then updatedTxOf t0 db data else t)).map
        (fun t => txContrib t a0.guid)).sum
    rw [sum_txContrib_replace db.transactions guid t0 (updatedTxOf t0 db data) a0.guid
      hwf.txNodup hf]
    rw [← splitSumFor_eq_sum_txContrib db a0.guid]
    rw [txContrib_mkSplits_small (updatedTxOf t0 db data) t0.guid db.guidSeq
      data.splits a0.guid rfl hsmall]
    rw [sumFor_revert_eq, hwf.balanced a0 ha0]
    ring

theorem WF_delete (db : DB) (guid : Nat) (db' : DB)
    (hwf : WF db) (h : delete_transaction db guid = .ok db') : WF db' := by
  obtain ⟨t0, accounts1, hf, hab, hdb⟩ := delete_transaction_ok_inv db guid db' h
  subst hdb
  have hguids := apply_balance_changes_guids db.accounts _ accounts1 hab
  have hmap := apply_balance_changes_eq_map _ db.accounts accounts1 hwf.acctNodup hab
  constructor
  · show (accounts1.map (fun a => a.guid)).Nodup
    rw [hguids]
    exact hwf.acctNodup
  · show ((db.transactions.filter (fun t => t.guid ≠ guid)).map (fun t => t.guid)).Nodup
    exact hwf.txNodup.sublist (List.Sublist.map _ (List.filter_sublist _))
  · intro t ht
    exact hwf.txBound t (List.mem_of_mem_filter ht)
  · intro a ha
    replace ha : a ∈ accounts1 := ha
    rw [hmap] at ha
    obtain ⟨a0, ha0, rfl⟩ := List.mem_map.mp ha
    show a0.current_balance + sumFor a0.guid (buildRevertChanges t0.splits) =
      splitSumFor _ ((bumpBalance a0 _).guid)
    rw [bumpBalance_guid, splitSumFor_eq_sum_txContrib]
    show _ = ((db.transactions.filter (fun t => t.guid ≠ guid)).map
      (fun t => txContrib t a0.guid)).sum
    rw [sum_txContrib_filter db.transactions guid t0 a0.guid hwf.txNodup hf]
    rw [← splitSumFor_eq_sum_txContrib db a0.guid, sumFor_revert_eq,
      hwf.balanced a0 ha0]
    ring

theorem applyOp_WF (db : DB) (op : Op) (hwf : WF db) (hs : opSmall op) :
    WF (applyOp db op) := by
  cases op with
  | post data =>
      rw [applyOp]
      cases h : post_transaction db data with
      | error e => exact hwf
      | ok r => exact WF_post db data r.1 r.2 hwf hs (by rw [h])
  | update g data =>
      rw [applyOp]
      cases h : update_transaction db g data with
      | error e => exact hwf
      | ok r => exact WF_update db g data r.1 r.2 hwf hs (by rw [h])
  | delete g =>
      rw [applyOp]
      cases h : delete_transaction db g with
      | error e => exact hwf
      | ok db2 => exact WF_delete db g db2 hwf h

theorem foldl_applyOp_WF (ops : List Op) :
    ∀ db : DB, WF db → (∀ op ∈ ops, opSmall op) → WF (ops.foldl applyOp db) := by
  induction ops with
  | nil => intro db hwf _; exact hwf
  | cons op rest ih =>
      intro db hwf hs
      rw [List.foldl_cons]
      exact ih (applyOp db op) (applyOp_WF db op hwf (hs op (by simp)))
        (fun o ho => hs o (by simp [ho]))

/-! ## Small bridging lemmas -/
theorem accountExists_iff_mem (db : DB) (g : Nat) :
    accountExists db g = true ↔ g ∈ db.accounts.map (fun a => a.guid) := by
  unfold accountExists findAccount
  rw [List.find?_isSome]
  simp

theorem Dec.neg_val (d : Dec) : (Dec.neg d).val = -d.val := by
  unfold Dec.neg Dec.val
  push_cast
  ring

theorem balancedCheck_eq_true_iff (db : DB) :
    balancedCheck db = true ↔ balancedInv db := by
  unfold balancedCheck balancedInv
  rw [List.all_eq_true]
  constructor
  · intro h a ha
    exact beq_iff_eq.mp (h a ha)
  · intro h a ha
    exact beq_iff_eq.mpr (h a ha)

/-! ## Commit quantization lemmas -/

theorem sixDigit_iff (q : ℚ) : sixDigit q ↔ ∃ k : Int, q = (k : ℚ) / 10 ^ 6 := by
  unfold sixDigit
  constructor
  · intro h
    refine ⟨(q * 10 ^ 6).num, ?_⟩
    have hq : ((q * 10 ^ 6).num : ℚ) = q * 10 ^ 6 := by
      conv_rhs => rw [← Rat.num_div_den (q * 10 ^ 6)]
      rw [h]
      norm_num
    rw [hq, mul_div_assoc, div_self (by norm_num : ((10 : ℚ) ^ 6) ≠ 0), mul_one]
  · rintro ⟨k, rfl⟩
    have hk : (k : ℚ) / 10 ^ 6 * 10 ^ 6 = (k : ℚ) := by
      rw [div_mul_cancel₀]
      norm_num
    rw [hk, Rat.den_intCast]

theorem sixDigit_zero : sixDigit 0 := by
  rw [sixDigit_iff]
  exact ⟨0, by norm_num⟩

theorem sixDigit_add (a b : ℚ) (ha : sixDigit a) (hb : sixDigit b) :
    sixDigit (a + b) := by
  rw [sixDigit_iff] at ha hb ⊢
  obtain ⟨k, hk⟩ := ha
  obtain ⟨l, hl⟩ := hb
  refine ⟨k + l, ?_⟩
  rw [hk, hl]
  push_cast
  ring

theorem sixDigit_neg (a : ℚ) (ha : sixDigit a) : sixDigit (-a) := by
  rw [sixDigit_iff] at ha ⊢
  obtain ⟨k, hk⟩ := ha
  refine ⟨-k, ?_⟩
  rw [hk]
  push_cast
  ring

theorem sixDigit_sub (a b : ℚ) (ha : sixDigit a) (hb : sixDigit b) :
    sixDigit (a - b) := by
  rw [sub_eq_add_neg]
  exact sixDigit_add a (-b) ha (sixDigit_neg b hb)

theorem sixDigit_listSum (l : List ℚ) (h : ∀ q ∈ l, sixDigit q) :
    sixDigit l.sum := by
  induction l with
  | nil => exact sixDigit_zero
  | cons q rest ih =>
      rw [List.sum_cons]
      exact sixDigit_add q rest.sum (h q (by simp))
        (ih (fun r hr => h r (by simp [hr])))

theorem quantize6_eq_self (q : ℚ) (h : sixDigit q) : quantize6 q = q := by
  obtain ⟨k, hk⟩ := (sixDigit_iff q).mp h
  have hq : q * 10 ^ 6 = (k : ℚ) := by
    rw [hk, div_mul_cancel₀]
    norm_num
  unfold quantize6
  rw [hq, roundHalfUp_intCast, hk]

theorem quantize6_zero : quantize6 0 = 0 :=
  quantize6_eq_self 0 sixDigit_zero

theorem sixDigit_int_div_pow (n : Int) (m : Nat) (hm : m ≤ 6) :
    sixDigit ((n : ℚ) / (((10 : Int) ^ m : Int) : ℚ)) := by
  rw [sixDigit_iff]
  refine ⟨n * 10 ^ (6 - m), ?_⟩
  have h1 : (((10 : Int) ^ m : Int) : ℚ) = (10 : ℚ) ^ m := by
    push_cast
    ring
  rw [h1]
  push_cast
  rw [div_eq_div_iff (by positivity) (by positivity), mul_assoc, ← pow_add,
    Nat.sub_add_cancel hm]

theorem sixDigit_codecRoundtrip (d : Dec) : sixDigit (codecRoundtrip d) := by
  unfold codecRoundtrip
  rw [decimal_to_fraction_def]
  show sixDigit (fraction_to_decimal _ ((10 : Int) ^ (min (max (-d.exponent) 2) 6).toNat))
  unfold fraction_to_decimal
  have hne : ¬((10 : Int) ^ (min (max (-d.exponent) 2) 6).toNat = 0) := by
    positivity
  rw [if_neg hne]
  apply sixDigit_int_div_pow
  have h2 : max (-d.exponent) 2 ≤ 6 ∨ (6 : Int) ≤ 6 := Or.inr le_rfl
  have h3 : min (max (-d.exponent) 2) 6 ≤ 6 := min_le_right _ _
  omega

theorem sixDigit_val_small (d : Dec) (h : -6 ≤ d.exponent) : sixDigit d.val := by
  rw [sixDigit_iff]
  refine ⟨d.m * 10 ^ (d.exponent + 6).toNat, ?_⟩
  have hz : (((d.exponent + 6).toNat : Nat) : Int) = d.exponent + 6 :=
    Int.toNat_of_nonneg (by omega)
  have hp : ((10 : ℚ) ^ ((d.exponent + 6).toNat) : ℚ) = (10 : ℚ) ^ (d.exponent + (6 : Int)) := by
    rw [← zpow_natCast (10 : ℚ) (d.exponent + 6).toNat, hz]
  unfold Dec.val
  push_cast
  rw [hp, zpow_add₀ (by norm_num : (10 : ℚ) ≠ 0),
    eq_div_iff (by positivity : ((10 : ℚ) ^ (6 : Nat)) ≠ 0)]
  norm_num
  ring

theorem sixDigit_mem_mkSplits (txG seq : Nat) (l : List SplitCreate) (s : Split)
    (hs : s ∈ mkSplits txG seq l) : sixDigit (storedAmount s) := by
  induction l generalizing seq with
  | nil => cases hs
  | cons sd rest ih =>
      rw [mkSplits] at hs
      rcases List.mem_cons.mp hs with h1 | h2
      · rw [h1, storedAmount_mkSplit]
        exact sixDigit_codecRoundtrip sd.amount
      · exact ih (seq + 1) h2

theorem splitsSixDigit_applyOp (db : DB) (op : Op) (h6 : splitsSixDigit db) :
    splitsSixDigit (applyOp db op) := by
  cases op with
  | post data =>
      cases hp : post_transaction db data with
      | error e =>
          have happ : applyOp db (Op.post data) = db := by
            simp only [applyOp]
            rw [hp]
          rw [happ]
          exact h6
      | ok r =>
          obtain ⟨db', tx⟩ := r
          have happ : applyOp db (Op.post data) = db' := by
            simp only [applyOp]
            rw [hp]
          rw [happ]
          obtain ⟨accounts1, hv, hab, htx, hdb⟩ :=
            post_transaction_ok_inv db data db' tx hp
          subst hdb
          intro t ht s hsmem
          rcases List.mem_append.mp ht with h1 | h2
          · exact h6 t h1 s hsmem
          · have heq : t = mkTxOf db data := by simpa using h2
            subst heq
            exact sixDigit_mem_mkSplits _ _ _ s hsmem
  | update guid data =>
      cases hp : update_transaction db guid data with
      | error e =>
          have happ : applyOp db (Op.update guid data) = db := by
            simp only [applyOp]
            rw [hp]
          rw [happ]
          exact h6
      | ok r =>
          obtain ⟨db', tx⟩ := r
          have happ : applyOp db (Op.update guid data) = db' := by
            simp only [applyOp]
            rw [hp]
          rw [happ]
          obtain ⟨t0, a1, a2, hv, hf, hab1, hab2, htx, hdb⟩ :=
            update_transaction_ok_inv db guid data db' tx hp
          subst hdb
          intro t ht s hsmem
          obtain ⟨u, hu, hut⟩ := List.mem_map.mp ht
          by_cases hg : u.guid = guid
          · rw [if_pos hg] at hut
            subst hut
            exact sixDigit_mem_mkSplits _ _ _ s hsmem
          · rw [if_neg hg] at hut
            subst hut
            exact h6 u hu s hsmem
  | delete guid =>
      cases hp : delete_transaction db guid with
      | error e =>
          have happ : applyOp db (Op.delete guid) = db := by
            simp only [applyOp]
            rw [hp]
          rw [happ]
          exact h6
      | ok db' =>
          have happ : applyOp db (Op.delete guid) = db' := by
            simp only [applyOp]
            rw [hp]
          rw [happ]
          obtain ⟨t0, a1, hf, hab, hdb⟩ := delete_transaction_ok_inv db guid db' hp
          subst hdb
          intro t ht s hsmem
          exact h6 t (List.mem_of_mem_filter ht) s hsmem

theorem sixDigit_splitSumFor (db : DB) (h6 : splitsSixDigit db) (g : Nat) :
    sixDigit (splitSumFor db g) := by
  unfold splitSumFor
  apply sixDigit_listSum
  intro q hq
  obtain ⟨s, hsmem, hval⟩ := List.mem_map.mp hq
  have hs' : s ∈ splitsOf db := List.mem_of_mem_filter hsmem
  unfold splitsOf at hs'
  obtain ⟨t, ht, hst⟩ := List.mem_flatMap.mp hs'
  exact hval ▸ h6 t ht s hst

theorem map_eq_self_of_id (l : List Account) (f : Account → Account)
    (h : ∀ a ∈ l, f a = a) : l.map f = l := by
  induction l with
  | nil => rfl
  | cons a rest ih =>
      rw [List.map_cons, h a (by simp), ih (fun b hb => h b (by simp [hb]))]

theorem commitBalances_eq_self (db : DB)
    (h : ∀ a ∈ db.accounts, sixDigit a.current_balance) :
    commitBalances db = db := by
  unfold commitBalances
  have hmap : db.accounts.map
      (fun a => { a with current_balance := quantize6 a.current_balance }) =
        db.accounts := by
    apply map_eq_self_of_id
    intro a ha
    rw [quantize6_eq_self a.current_balance (h a ha)]
  rw [hmap]

theorem applyOpC_eq_applyOp (db : DB) (op : Op) (hwf : WF db)
    (h6 : splitsSixDigit db) (hs : opSmall op) :
    applyOpC db op = applyOp db op := by
  unfold applyOpC
  apply commitBalances_eq_self
  intro a ha
  have hwf' : WF (applyOp db op) := applyOp_WF db op hwf hs
  have h6' : splitsSixDigit (applyOp db op) := splitsSixDigit_applyOp db op h6
  rw [hwf'.balanced a ha]
  exact sixDigit_splitSumFor _ h6' a.guid

theorem foldl_applyOpC_eq_foldl (ops : List Op) : ∀ db : DB, WF db →
    splitsSixDigit db → (∀ op ∈ ops, opSmall op) →
    ops.foldl applyOpC db = ops.foldl applyOp db := by
  induction ops with
  | nil => intro db _ _ _; rfl
  | cons op rest ih =>
      intro db hwf h6 hs
      rw [List.foldl_cons, List.foldl_cons,
        applyOpC_eq_applyOp db op hwf h6 (hs op (by simp))]
      exact ih (applyOp db op) (applyOp_WF db op hwf (hs op (by simp)))
        (splitsSixDigit_applyOp db op h6) (fun o ho => hs o (by simp [ho]))

theorem lookupBalance_commit (l : List Account) (g : Nat) :
    lookupBalance (l.map
        (fun a => { a with current_balance := quantize6 a.current_balance })) g =
      quantize6 (lookupBalance l g) := by
  induction l with
  | nil =>
      unfold lookupBalance
      rw [List.map_nil]
      simp [quantize6_zero]
  | cons a rest ih =>
      unfold lookupBalance
      rw [List.map_cons]
      by_cases hg : (a.guid == g) = true
      · rw [List.find?_cons_of_pos (p := fun b : Account => b.guid == g)
            (a := { a with current_balance := quantize6 a.current_balance }) _ hg,
          List.find?_cons_of_pos (p := fun b : Account => b.guid == g) _ hg]
        rfl
      · rw [List.find?_cons_of_neg (p := fun b : Account => b.guid == g)
            (a := { a with current_balance := quantize6 a.current_balance }) _ hg,
          List.find?_cons_of_neg (p := fun b : Account => b.guid == g) _ hg]
        exact ih

theorem balanceOf_commitBalances (db : DB) (g : Nat) :
    balanceOf (commitBalances db) g = quantize6 (balanceOf db g) := by
  rw [balanceOf_eq_lookup, balanceOf_eq_lookup]
  exact lookupBalance_commit db.accounts g

theorem sixDigit_inputSumFor (x : Nat) (data : TransactionCreate)
    (h : smallInput data) : sixDigit (inputSumFor x data) := by
  unfold inputSumFor
  apply sixDigit_listSum
  intro q hq
  obtain ⟨sd, hsd, hval⟩ := List.mem_map.mp hq
  exact hval ▸ sixDigit_val_small sd.amount (h sd (List.mem_of_mem_filter hsd))

theorem sixDigit_oldTxStoredSum (db : DB) (guid x : Nat)
    (h6 : splitsSixDigit db) : sixDigit (oldTxStoredSum db guid x) := by
  unfold oldTxStoredSum
  cases hf : findTx db guid with
  | none => exact sixDigit_zero
  | some t =>
      unfold txContrib
      apply sixDigit_listSum
      intro q hq
      obtain ⟨s, hsmem, hval⟩ := List.mem_map.mp hq
      unfold findTx at hf
      have htmem : t ∈ db.transactions := List.mem_of_find?_eq_some hf
      exact hval ▸ h6 t htmem s (List.mem_of_mem_filter hsmem)

/-! ## Claim theorems -/

/-- C4: for every decimal with at most six fractional digits the codec
round-trips exactly (`fraction_to_decimal (decimal_to_fraction d) = d`);
for a decimal with more than six fractional digits, `decimal_to_fraction`
rounds half-up at the sixth fractional digit with denominator `10^6`. -/
theorem C4_codec_roundtrip :
    (∀ d : Dec, -6 ≤ d.exponent →
      fraction_to_decimal (decimal_to_fraction d).1 (decimal_to_fraction d).2 = d.val) ∧
    (∀ d : Dec, d.exponent < -6 →
      decimal_to_fraction d = (roundHalfUp (d.val * 1000000), 1000000)) := by
  constructor
  · exact fun d h => codecRoundtrip_eq_val d h
  · intro d h
    rw [decimal_to_fraction_def]
    have hs : min (max (-d.exponent) 2) 6 = (6 : Int) := by omega
    have h7 : (6 : Int).toNat = 6 := rfl
    rw [hs, h7]
    norm_num

/-- Witness for C4 at `12.345` (three fractional digits) and `0.0000005`
(seven fractional digits, rounding half-up to `1/10^6`). -/
theorem C4_codec_roundtrip_witness :
    fraction_to_decimal (decimal_to_fraction ⟨12345, -3⟩).1
        (decimal_to_fraction ⟨12345, -3⟩).2 = (⟨12345, -3⟩ : Dec).val ∧
    decimal_to_fraction ⟨5, -7⟩ =
      (roundHalfUp ((⟨5, -7⟩ : Dec).val * 1000000), 1000000) :=
  ⟨C4_codec_roundtrip.1 ⟨12345, -3⟩ (by decide),
   C4_codec_roundtrip.2 ⟨5, -7⟩ (by decide)⟩

/-- C1 (amended): starting from any committed well-formed state whose
stored split fractions have at most six fractional digits, after any
sequence of post / update / delete operations — each followed by its
commit through the `Numeric(18, 6)` balance column — whose input split
amounts all have at most six fractional digits, every account's committed
`current_balance` equals the sum of the stored amounts
(`value_num/value_denom`) of the splits referencing it.  (For amounts
beyond six fractional digits the stored fraction is rounded while the
aggregated balance delta need not be, and the invariant can break — see
the counterexample.) -/
theorem C1_balance_invariant (db : DB) (ops : List Op) (hwf : WF db)
    (h6 : splitsSixDigit db) (hs : ∀ op ∈ ops, opSmall op) :
    ∀ a ∈ (ops.foldl applyOpC db).accounts,
      a.current_balance = splitSumFor (ops.foldl applyOpC db) a.guid := by
  rw [foldl_applyOpC_eq_foldl ops db hwf h6 hs]
  exact (foldl_applyOp_WF ops db hwf hs).balanced

/-- Witness for C1: post `(+100.00, -100.00)` and then delete the posted
transaction, committing after each call; the invariant holds in the final
state. -/
theorem C1_balance_invariant_witness :
    balancedCheck (List.foldl applyOpC dbC1 [Op.post dataC1flat, Op.delete 10]) = true := by
  apply (balancedCheck_eq_true_iff _).mpr
  apply C1_balance_invariant
  · exact ⟨by decide, by decide, by decide, by with_unfolding_all decide⟩
  · with_unfolding_all decide
  · intro op hop
    rcases List.mem_cons.mp hop with h1 | h2
    · subst h1
      exact (by decide : smallInput dataC1flat)
    · rcases List.mem_cons.mp h2 with h3 | h4
      · subst h3
        exact trivial
      · cases h4

/-- Counterexample to C1 as stated: posting the zero-sum input
`[(A, +0.0000005), (A, +0.0000005), (B, -0.000001)]` succeeds, and after
the commit account `A` holds the committed balance `0.000001` (the
aggregated delta, unchanged by the `Numeric(18, 6)` quantization) while
its two stored split fractions each round up to `0.000001` and sum to
`0.000002`. -/
theorem C1_counterexample :
    (∀ a ∈ dbC1.accounts, a.current_balance = splitSumFor dbC1 a.guid) ∧
    (post_transaction dbC1 dataC1dup).isOk = true ∧
    balanceOf (applyOpC dbC1 (Op.post dataC1dup)) 1 = 1 / 10 ^ 6 ∧
    splitSumFor (applyOpC dbC1 (Op.post dataC1dup)) 1 = 2 / 10 ^ 6 ∧
    ¬ (∀ a ∈ (applyOpC dbC1 (Op.post dataC1dup)).accounts,
        a.current_balance = splitSumFor (applyOpC dbC1 (Op.post dataC1dup)) a.guid) := by
  refine ⟨?_, ?_, ?_, ?_, ?_⟩
  · with_unfolding_all decide
  · with_unfolding_all decide
  · with_unfolding_all rfl
  · with_unfolding_all rfl
  · intro hinv
    have htrue : balancedCheck (applyOpC dbC1 (Op.post dataC1dup)) = true :=
      (balancedCheck_eq_true_iff _).mpr hinv
    have hfalse : balancedCheck (applyOpC dbC1 (Op.post dataC1dup)) = false := by
      with_unfolding_all rfl
    rw [htrue] at hfalse
    cases hfalse

theorem account_keys_bridge (db : DB) (data : TransactionCreate) :
    (∃ l', apply_balance_changes db.accounts (buildChanges data.splits) = .ok l') ↔
      ∀ sd ∈ data.splits, accountExists db sd.account_guid = true := by
  rw [apply_balance_changes_ok_iff]
  constructor
  · intro h sd hsd
    rw [accountExists_iff_mem]
    have hmem : sd.account_guid ∈ (buildChanges data.splits).map (fun c => c.1) :=
      (mem_keys_buildChanges _ _).mpr ⟨sd, hsd, rfl⟩
    obtain ⟨c, hc, hceq⟩ := List.mem_map.mp hmem
    exact hceq ▸ h c hc
  · intro h c hc
    have hmem : c.1 ∈ (buildChanges data.splits).map (fun c => c.1) :=
      List.mem_map_of_mem _ hc
    obtain ⟨sd, hsd, heq⟩ := (mem_keys_buildChanges _ _).mp hmem
    rw [← heq, ← accountExists_iff_mem]
    exact h sd hsd

/-- C2: `postTransaction` fails (committing nothing) exactly when the
input has fewer than two splits, or its signed amounts do not sum to
zero, or some referenced account guid does not exist; on every input
passing these checks it persists the transaction, whose split rows
correspond one-to-one to the input splits. -/
theorem C2_post_validation (db : DB) (data : TransactionCreate) :
    ((post_transaction db data).isOk = false ↔
      data.splits.length < 2 ∨ amountSum data ≠ 0 ∨
        ∃ sd ∈ data.splits, accountExists db sd.account_guid = false) ∧
    (∀ db' tx, post_transaction db data = .ok (db', tx) →
      db'.transactions = db.transactions ++ [tx] ∧
      tx.splits.length = data.splits.length ∧
      List.Forall₂ (fun (sd : SplitCreate) (s : Split) =>
        s.account_guid = sd.account_guid ∧ s.tx_guid = tx.guid ∧
        (s.value_num, s.value_denom) = decimal_to_fraction sd.amount)
        data.splits tx.splits) := by
  constructor
  · by_cases h1 : data.splits.length < 2
    · have hpost : post_transaction db data = .error LedgerError.tooFewSplits := by
        unfold post_transaction ensure_double_entry
        rw [if_pos h1]
      rw [hpost]
      simp [Except.isOk, Except.toBool, h1]
    · by_cases h2 : amountSum data ≠ 0
      · have hpost : post_transaction db data = .error LedgerError.unbalancedSplits := by
          unfold post_transaction ensure_double_entry
          rw [if_neg h1, if_pos h2]
        rw [hpost]
        simp [Except.isOk, Except.toBool, h2]
      · have hv : ensure_double_entry data = .ok () := by
          unfold ensure_double_entry
          rw [if_neg h1, if_neg h2]
        have hpost : post_transaction db data = create_transaction db data := by
          unfold post_transaction
          rw [hv]
        rw [hpost]
        cases hab : apply_balance_changes db.accounts (buildChanges data.splits) with
        | error e =>
            have hc : create_transaction db data = .error e := by
              unfold create_transaction
              rw [hab]
            have hnex : ¬∃ l', apply_balance_changes db.accounts
                (buildChanges data.splits) = .ok l' := by
              rw [hab]
              rintro ⟨l', hl'⟩
              cases hl'
            have hmiss : ∃ sd ∈ data.splits, accountExists db sd.account_guid = false := by
              have hnall := (not_iff_not.mpr (account_keys_bridge db data)).mp hnex
              push_neg at hnall
              obtain ⟨sd, hsd, hne⟩ := hnall
              exact ⟨sd, hsd, by rwa [← Bool.not_eq_true]⟩
            rw [hc]
            simp only [Except.isOk]
            constructor
            · intro _
              exact Or.inr (Or.inr hmiss)
            · intro _
              rfl
        | ok l1 =>
            have hc : create_transaction db data =
                .ok ({ db with accounts := l1,
                               transactions := db.transactions ++ [mkTxOf db data],
                               guidSeq := db.guidSeq + 1 + data.splits.length },
                     mkTxOf db data) := by
              unfold create_transaction
              rw [hab]
            have hall := (account_keys_bridge db data).mp ⟨l1, hab⟩
            rw [hc]
            simp only [Except.isOk]
            constructor
            · intro hfalse
              cases hfalse
            · intro hrhs
              rcases hrhs with h | h | ⟨sd, hsd, hne⟩
              · exact absurd h h1
              · exact absurd h h2
              · rw [hall sd hsd] at hne
                cases hne
  · intro db' tx h
    obtain ⟨accounts1, hv, hab, htx, hdb⟩ := post_transaction_ok_inv db data db' tx h
    subst htx
    subst hdb
    refine ⟨rfl, ?_, ?_⟩
    · exact mkSplits_length db.guidSeq (db.guidSeq + 1) data.splits
    · exact mkSplits_forall₂ db.guidSeq (db.guidSeq + 1) data.splits

/-- Witness for C2: a one-split input is rejected, and posting the
balanced pair `(+100.00, -100.00)` persists a transaction whose split
rows encode the input amounts. -/
theorem C2_post_validation_witness :
    ((post_transaction dbC1 (mkTxInput [mkSplitInput 1 ⟨10000, -2⟩])).isOk = false) ∧
    (applyOp dbC1 (Op.post dataC1flat)).transactions =
      dbC1.transactions ++ [mkTxOf dbC1 dataC1flat] ∧
    List.Forall₂ (fun (sd : SplitCreate) (s : Split) =>
      s.account_guid = sd.account_guid ∧ s.tx_guid = (mkTxOf dbC1 dataC1flat).guid ∧
      (s.value_num, s.value_denom) = decimal_to_fraction sd.amount)
      dataC1flat.splits (mkTxOf dbC1 dataC1flat).splits := by
  refine ⟨?_, ?_, ?_⟩
  · exact (C2_post_validation dbC1 (mkTxInput [mkSplitInput 1 ⟨10000, -2⟩])).1.mpr
      (Or.inl (by decide))
  · exact ((C2_post_validation dbC1 dataC1flat).2
      (applyOp dbC1 (Op.post dataC1flat)) (mkTxOf dbC1 dataC1flat)
      (by with_unfolding_all rfl)).1
  · exact ((C2_post_validation dbC1 dataC1flat).2
      (applyOp dbC1 (Op.post dataC1flat)) (mkTxOf dbC1 dataC1flat)
      (by with_unfolding_all rfl)).2.2

/-- Session-level delta equation of `update_transaction`, before the
commit quantization of the balance column. -/
theorem update_balance_delta_session (db : DB) (guid : Nat) (data : TransactionCreate)
    (x : Nat) (hok : (update_transaction db guid data).isOk = true) :
    balanceOf (applyOp db (Op.update guid data)) x =
      balanceOf db x + inputSumFor x data - oldTxStoredSum db guid x := by
  cases h : update_transaction db guid data with
  | error e =>
      rw [h] at hok
      simp [Except.isOk, Except.toBool] at hok
  | ok r =>
      obtain ⟨db', tx⟩ := r
      obtain ⟨t0, a1, a2, hv, hf, hab1, hab2, htx, hdb⟩ :=
        update_transaction_ok_inv db guid data db' tx h
      have happly : applyOp db (Op.update guid data) = db' := by
        simp only [applyOp]
        rw [h]
      rw [happly]
      subst hdb
      rw [balanceOf_eq_lookup, balanceOf_eq_lookup]
      show lookupBalance a2 x = lookupBalance db.accounts x + _ - _
      rw [apply_balance_changes_lookup a1 _ a2 x hab2,
        apply_balance_changes_lookup db.accounts _ a1 x hab1,
        sumFor_revert_eq, sumFor_buildChanges]
      unfold oldTxStoredSum
      rw [hf]
      unfold inputSumFor
      ring

/-- C3 (amended): a successful `updateTransaction` applies the negated
deltas of the existing splits, replaces the split set and applies the new
deltas; provided the new input amounts have at most six fractional digits
and the starting state is a committed one (stored split fractions and the
account's balance exactly representable in the `Numeric(18, 6)` column),
the committed balance of every account after the update equals its
balance before plus the sum of the new input amounts referencing it minus
the sum of the old stored split amounts referencing it.  (For a
seven-digit input amount the committed balance is rounded by the column
and the exact equation can fail — see the counterexample.) -/
theorem C3_update_balance_delta (db : DB) (guid : Nat) (data : TransactionCreate)
    (x : Nat) (hok : (update_transaction db guid data).isOk = true)
    (hsmall : smallInput data) (h6 : splitsSixDigit db)
    (hbal : sixDigit (balanceOf db x)) :
    balanceOf (applyOpC db (Op.update guid data)) x =
      balanceOf db x + inputSumFor x data - oldTxStoredSum db guid x := by
  unfold applyOpC
  rw [balanceOf_commitBalances, update_balance_delta_session db guid data x hok]
  exact quantize6_eq_self _ (sixDigit_sub _ _
    (sixDigit_add _ _ hbal (sixDigit_inputSumFor x data hsmall))
    (sixDigit_oldTxStoredSum db guid x h6))

/-- Witness for C3, running the spec's scenario: post
`[(A, +100.00), (B, -100.00)]`, then update the same transaction to
`[(A, +60.00), (C, -60.00)]`, committing after each call; the final
balances are `A = 60`, `B = 0`, `C = -60`. -/
theorem C3_update_balance_delta_witness :
    balanceOf (applyOpC (applyOpC dbC3 (Op.post dataC3post)) (Op.update 20 dataC3upd)) 1
        = 60 ∧
    balanceOf (applyOpC (applyOpC dbC3 (Op.post dataC3post)) (Op.update 20 dataC3upd)) 2
        = 0 ∧
    balanceOf (applyOpC (applyOpC dbC3 (Op.post dataC3post)) (Op.update 20 dataC3upd)) 3
        = -60 := by
  refine ⟨?_, ?_, ?_⟩
  · exact (C3_update_balance_delta (applyOpC dbC3 (Op.post dataC3post)) 20 dataC3upd 1
      (by with_unfolding_all rfl) (by decide) (by with_unfolding_all decide)
      (by with_unfolding_all decide)).trans (by with_unfolding_all rfl)
  · exact (C3_update_balance_delta (applyOpC dbC3 (Op.post dataC3post)) 20 dataC3upd 2
      (by with_unfolding_all rfl) (by decide) (by with_unfolding_all decide)
      (by with_unfolding_all decide)).trans (by with_unfolding_all rfl)
  · exact (C3_update_balance_delta (applyOpC dbC3 (Op.post dataC3post)) 20 dataC3upd 3
      (by with_unfolding_all rfl) (by decide) (by with_unfolding_all decide)
      (by with_unfolding_all decide)).trans (by with_unfolding_all rfl)

/-- Counterexample to C3 as stated: updating the committed
`(+1.00, -1.00)` transaction to the seven-digit pair
`(+0.0000005, -0.0000005)` succeeds, but account 1's committed balance is
the column-rounded `0.000001`, not the exact
`balance + new input sum - old stored sum = 0.0000005`. -/
theorem C3_counterexample :
    (update_transaction dbC3q 30 dataDeepPair).isOk = true ∧
    balanceOf dbC3q 1 + inputSumFor 1 dataDeepPair - oldTxStoredSum dbC3q 30 1
      = 5 / 10 ^ 7 ∧
    balanceOf (applyOpC dbC3q (Op.update 30 dataDeepPair)) 1 = 1 / 10 ^ 6 ∧
    balanceOf (applyOpC dbC3q (Op.update 30 dataDeepPair)) 1 ≠
      balanceOf dbC3q 1 + inputSumFor 1 dataDeepPair - oldTxStoredSum dbC3q 30 1 := by
  refine ⟨?_, ?_, ?_, ?_⟩
  · with_unfolding_all decide
  · with_unfolding_all rfl
  · with_unfolding_all rfl
  · with_unfolding_all decide

/-- C5: `deleteAccount` fails naming the child accounts when any exist,
fails when the balance is non-zero, fails when any split references the
account, and removes an existing childless, zero-balance, unreferenced
account.  Each failing branch returns an error, so the session is rolled
back unchanged. -/
theorem C5_delete_account (db : DB) (guid : Nat) (a0 : Account)
    (hf : findAccount db guid = some a0) :
    ((db.accounts.filter (fun c => c.parent_guid == some guid)) ≠ [] →
      delete_account db guid = .error (.hasChildren
        ((db.accounts.filter (fun c => c.parent_guid == some guid)).map
          (fun c => c.name)))) ∧
    (db.accounts.filter (fun c => c.parent_guid == some guid) = [] →
      a0.current_balance ≠ 0 →
      delete_account db guid = .error (.nonzeroBalance a0.current_balance)) ∧
    (db.accounts.filter (fun c => c.parent_guid == some guid) = [] →
      a0.current_balance = 0 →
      (splitsOf db).any (fun s => s.account_guid == guid) = true →
      delete_account db guid = .error .accountInUse) ∧
    (db.accounts.filter (fun c => c.parent_guid == some guid) = [] →
      a0.current_balance = 0 →
      (splitsOf db).any (fun s => s.account_guid == guid) = false →
      delete_account db guid =
        .ok { db with accounts := db.accounts.filter (fun c => c.guid ≠ guid) }) := by
  refine ⟨?_, ?_, ?_, ?_⟩
  · intro hch
    simp only [delete_account, hf]
    rw [if_pos hch]
  · intro hch hbal
    simp only [delete_account, hf]
    rw [if_neg (fun hne => hne hch), if_pos hbal]
  · intro hch hbal hsp
    simp only [delete_account, hf]
    rw [if_neg (fun hne => hne hch), if_neg (fun hne => hne hbal), if_pos hsp]
  · intro hch hbal hsp
    simp only [delete_account, hf]
    rw [if_neg (fun hne => hne hch), if_neg (fun hne => hne hbal),
      if_neg (by rw [hsp]; exact Bool.false_ne_true)]

/-- Witness for C5: deleting the childless, zero-balance, unreferenced
account succeeds and removes it. -/
theorem C5_delete_account_witness :
    delete_account dbC5 1 =
      .ok { dbC5 with accounts := dbC5.accounts.filter (fun c => c.guid ≠ 1) } :=
  (C5_delete_account dbC5 1 (acctFix 1 "A") (by decide)).2.2.2 (by decide)
    (by decide) (by decide)

/-- Counterexample to C6 as stated: in a cycle-free two-account hierarchy
(`B`'s parent is `A`), `updateAccount` accepts making `B` the parent of
`A`; afterwards following parent links from `A` for two steps returns to
`A`. -/
theorem C6_counterexample :
    hasParentCycle dbC6 = false ∧
    (update_account dbC6 1 (reparentTo 2)).isOk = true ∧
    hasParentCycle (updateAccountResult dbC6 1 (reparentTo 2)) = true ∧
    followParent (updateAccountResult dbC6 1 (reparentTo 2)) 1 2 = some 1 := by
  refine ⟨?_, ?_, ?_, ?_⟩ <;> decide

/-- C6 (amended): `updateAccount` rejects setting an account as its own
direct parent; cycles through intermediate accounts are not prevented
(see the counterexample). -/
theorem C6_self_parent_rejected (db : DB) (g : Nat) (u : AccountUpdate) (a0 : Account)
    (hf : findAccount db g = some a0) (hname : u.name = none)
    (hp : u.parent_guid = some g) :
    update_account db g u = .error .selfParent := by
  simp only [update_account, hf, hname, hp]
  simp

/-- Witness for C6: reparenting account 2 of the fixture to itself is
rejected. -/
theorem C6_self_parent_rejected_witness :
    update_account dbC6 2 (reparentTo 2) = .error .selfParent :=
  C6_self_parent_rejected dbC6 2 (reparentTo 2)
    { acctFix 2 "B" with parent_guid := some 1 } (by decide) rfl rfl

theorem execute_ok_some_inv (db : DB) (e : FixedExpense) (run_date : Date)
    (force : Bool) (r : Option Nat × List Warning × DB × FixedExpense)
    (h : execute_fixed_expense db e run_date force = .ok r)
    (hsome : r.1.isSome = true) :
    ∃ pay ws db' tx,
      select_payment_account db e e.amount.val = (some pay, ws) ∧
      post_transaction db (chargeTx e run_date pay) = .ok (db', tx) ∧
      r = (some tx.guid, ws, db',
           { e with last_run_month := some (firstOfMonth run_date) }) := by
  unfold execute_fixed_expense at h
  split at h
  · injection h with h1
    subst h1
    simp at hsome
  · split at h
    · injection h with h1
      subst h1
      simp at hsome
    · split at h
      · injection h with h1
        subst h1
        simp at hsome
      · split at h
        · next ws hsel =>
            injection h with h1
            subst h1
            simp at hsome
        · next pay ws hsel =>
            split at h
            · cases h
            · next db' tx hpost =>
                injection h with h1
                subst h1
                exact ⟨pay, ws, db', tx, hsel, hpost, rfl⟩

/-- C7: `isDue` is false when `lastRunMonth` equals the first day of the
target month; otherwise it is true exactly when the target date has
reached the due date, whose day is `min(configuredDay, lastDayOfMonth)`
(clamping short months).  `isDue` is a pure function, so two calls with
the same arguments agree; after an execution that posts a transaction,
`isDue` is false for every date of the run month. -/
theorem C7_is_due (e : FixedExpense) (target : Date) (hday : 1 ≤ e.day_of_month) :
    (e.last_run_month = some (firstOfMonth target) → is_due e target = false) ∧
    (e.last_run_month ≠ some (firstOfMonth target) →
      (is_due e target = true ↔
        dateLe { year := target.year, month := target.month,
                 day := min e.day_of_month (daysInMonth target.year target.month) }
          target = true)) ∧
    (∀ db force run_date,
      ((execResult db e run_date force).1).isSome = true →
      ∀ d : Date, d.year = run_date.year → d.month = run_date.month →
        is_due (execResult db e run_date force).2.2.2 d = false) := by
  refine ⟨?_, ?_, ?_⟩
  · intro hlast
    unfold is_due
    rw [if_pos hlast]
  · intro hlast
    unfold is_due
    rw [if_neg hlast, Nat.max_eq_left hday]
    exact Iff.rfl
  · intro db force run_date hsome d hy hm
    unfold execResult at hsome ⊢
    cases hex : execute_fixed_expense db e run_date force with
    | error err =>
        rw [hex] at hsome
        simp at hsome
    | ok r =>
        rw [hex] at hsome
        obtain ⟨pay, ws, db', tx, hsel, hpost, hr⟩ :=
          execute_ok_some_inv db e run_date force r hex hsome
        subst hr
        have hfm : firstOfMonth d = firstOfMonth run_date := by
          unfold firstOfMonth
          cases d
          cases run_date
          simp only at hy hm
          rw [hy, hm]
        unfold is_due
        rw [if_pos (by rw [hfm])]

/-- Witness for C7: configured day 30 in February 2023 (non-leap) clamps
to the 28th — not yet due on the 27th, due on the 28th; and after an
execution on 2026-01-15 the expense is no longer due on 2026-01-31. -/
theorem C7_is_due_witness :
    is_due expC7 ⟨2023, 2, 27⟩ = false ∧
    is_due expC7 ⟨2023, 2, 28⟩ = true ∧
    is_due (execResult dbC7 expC7 ⟨2026, 1, 15⟩ true).2.2.2 ⟨2026, 1, 31⟩ = false := by
  refine ⟨?_, ?_, ?_⟩
  · have h := (C7_is_due expC7 ⟨2023, 2, 27⟩ (by decide)).2.1 (by decide)
    have h2 : ¬ is_due expC7 ⟨2023, 2, 27⟩ = true := by
      rw [h]
      decide
    exact (Bool.not_eq_true _) ▸ h2
  · exact ((C7_is_due expC7 ⟨2023, 2, 28⟩ (by decide)).2.1 (by decide)).mpr (by decide)
  · exact (C7_is_due expC7 ⟨2026, 1, 31⟩ (by decide)).2.2 dbC7 true ⟨2026, 1, 15⟩
      (by with_unfolding_all rfl) ⟨2026, 1, 31⟩ rfl rfl

theorem cashflow_dir_sum_aux (db : DB) (s e : Date) (ft : FlowType) (dir : Direction) :
    ∀ ts : List CashflowType,
      ((((ts.filterMap (cashflowRowFor db s e)).filter
          (fun r => r.flow_type == ft)).filter
            (fun r => r.direction == dir)).map (fun r => |r.amount|)).sum =
        ((ts.filter (fun ct => ct.flow_type == ft && ct.direction == dir)).map
          (fun ct => |typeSum db s e ct|)).sum := by
  intro ts
  induction ts with
  | nil => rfl
  | cons ct rest ih =>
      rw [List.filterMap_cons]
      cases hrow : cashflowRowFor db s e ct with
      | none =>
          have hts : typeSum db s e ct = 0 := by
            unfold cashflowRowFor at hrow
            by_cases hemp : ((splitsInPeriod db s e).filter
                (fun sp => sp.cashflow_type_id == some ct.id)).isEmpty = true
            · unfold typeSum
              rw [List.isEmpty_iff.mp hemp]
              rfl
            · rw [if_neg hemp] at hrow
              cases hrow
          rw [List.filter_cons]
          by_cases hmatch : (ct.flow_type == ft && ct.direction == dir) = true
          · rw [if_pos hmatch, List.map_cons, List.sum_cons, hts, abs_zero, ih,
              zero_add]
          · rw [if_neg hmatch]
            exact ih
      | some row =>
          have hrow' : row =
              { flow_type := ct.flow_type, direction := ct.direction,
                category_name := ct.name, cashflow_type_id := ct.id,
                amount := typeSum db s e ct } := by
            unfold cashflowRowFor at hrow
            by_cases hemp : ((splitsInPeriod db s e).filter
                (fun sp => sp.cashflow_type_id == some ct.id)).isEmpty = true
            · rw [if_pos hemp] at hrow
              cases hrow
            · rw [if_neg hemp] at hrow
              injection hrow with h1
              exact h1.symm
          subst hrow'
          rw [List.filter_cons, List.filter_cons]
          by_cases hft : (ct.flow_type == ft) = true
          · rw [if_pos hft, List.filter_cons]
            by_cases hdir : (ct.direction == dir) = true
            · rw [if_pos hdir, if_pos (by rw [hft, hdir]; rfl), List.map_cons,
                List.sum_cons, List.map_cons, List.sum_cons, ih]
            · rw [if_neg hdir, if_neg (fun hc : (_ && _) = true => hdir
                (Bool.and_elim_right hc)), ih]
          · rw [if_neg hft, if_neg (fun hc : (_ && _) = true => hft
              (Bool.and_elim_left hc)), ih]

/-- C8 (amended): the cash-flow statement considers exactly the splits in
the period that carry a cash-flow-type id; per type it sums signed
amounts and adds the absolute value of each type's sum to its
(flow category, direction) bucket; per-category net = inflow − outflow,
and the statement total is the sum of the three category nets.  (The
spec's "each group sums absolute amounts" fails for types with
mixed-sign splits — see the counterexample.) -/
theorem C8_cashflow_statement (db : DB) (s e : Date) :
    (generate_cashflow_statement db s e).operating.inflow =
        dirTotal db s e FlowType.OPERATING Direction.INFLOW ∧
    (generate_cashflow_statement db s e).operating.outflow =
        dirTotal db s e FlowType.OPERATING Direction.OUTFLOW ∧
    (generate_cashflow_statement db s e).investing.inflow =
        dirTotal db s e FlowType.INVESTING Direction.INFLOW ∧
    (generate_cashflow_statement db s e).investing.outflow =
        dirTotal db s e FlowType.INVESTING Direction.OUTFLOW ∧
    (generate_cashflow_statement db s e).financing.inflow =
        dirTotal db s e FlowType.FINANCING Direction.INFLOW ∧
    (generate_cashflow_statement db s e).financing.outflow =
        dirTotal db s e FlowType.FINANCING Direction.OUTFLOW ∧
    (generate_cashflow_statement db s e).operating.net =
        (generate_cashflow_statement db s e).operating.inflow -
          (generate_cashflow_statement db s e).operating.outflow ∧
    (generate_cashflow_statement db s e).investing.net =
        (generate_cashflow_statement db s e).investing.inflow -
          (generate_cashflow_statement db s e).investing.outflow ∧
    (generate_cashflow_statement db s e).financing.net =
        (generate_cashflow_statement db s e).financing.inflow -
          (generate_cashflow_statement db s e).financing.outflow ∧
    (generate_cashflow_statement db s e).total_net =
        (generate_cashflow_statement db s e).operating.net +
          (generate_cashflow_statement db s e).investing.net +
          (generate_cashflow_statement db s e).financing.net := by
  refine ⟨?_, ?_, ?_, ?_, ?_, ?_, rfl, rfl, rfl, rfl⟩ <;>
    exact cashflow_dir_sum_aux db s e _ _ db.cashflow_types

/-- Counterexample to C8 as stated: an operating/inflow type tagging the
splits `+100` and `-30` in the period yields inflow `|100 - 30| = 70`,
while summing absolute amounts within the group, as the spec words it,
gives `130`. -/
theorem C8_counterexample :
    (generate_cashflow_statement dbC8 ⟨2026, 1, 1⟩ ⟨2026, 1, 31⟩).operating.inflow
        = 70 ∧
    cashflow_spec_group_sum dbC8 ⟨2026, 1, 1⟩ ⟨2026, 1, 31⟩ FlowType.OPERATING
        Direction.INFLOW = 130 ∧
    (generate_cashflow_statement dbC8 ⟨2026, 1, 1⟩ ⟨2026, 1, 31⟩).operating.inflow ≠
      cashflow_spec_group_sum dbC8 ⟨2026, 1, 1⟩ ⟨2026, 1, 31⟩ FlowType.OPERATING
        Direction.INFLOW := by
  have h1 : (generate_cashflow_statement dbC8 ⟨2026, 1, 1⟩ ⟨2026, 1, 31⟩).operating.inflow
      = 70 := by with_unfolding_all rfl
  have h2 : cashflow_spec_group_sum dbC8 ⟨2026, 1, 1⟩ ⟨2026, 1, 31⟩ FlowType.OPERATING
      Direction.INFLOW = 130 := by with_unfolding_all rfl
  refine ⟨h1, h2, ?_⟩
  rw [h1, h2]
  norm_num

/-- C10: the cash-flow aggregation never filters on a type's active flag:
flipping `is_active` on any set of cash-flow types leaves the generated
statement unchanged, so splits tagged with inactive types are included
identically. -/
theorem C10_active_flag_ignored (db : DB) (s e : Date)
    (f : CashflowType → CashflowType) (hf : preservesAllButActive f) :
    generate_cashflow_statement
        { db with cashflow_types := db.cashflow_types.map f } s e =
      generate_cashflow_statement db s e := by
  have hrows : cashflowRows { db with cashflow_types := db.cashflow_types.map f } s e
      = cashflowRows db s e := by
    unfold cashflowRows
    show (db.cashflow_types.map f).filterMap
        (cashflowRowFor { db with cashflow_types := db.cashflow_types.map f } s e)
      = db.cashflow_types.filterMap (cashflowRowFor db s e)
    rw [List.filterMap_map]
    apply List.filterMap_congr
    intro ct _
    obtain ⟨hid, hft, hdir, hname, _⟩ := hf ct
    show cashflowRowFor _ s e (f ct) = cashflowRowFor db s e ct
    unfold cashflowRowFor
    rw [hid, hft, hdir, hname]
    exact rfl
  unfold generate_cashflow_statement
  rw [hrows]

/-- Witness for C10: flipping the active flag of every type in the C8
fixture leaves the statement unchanged. -/
theorem C10_active_flag_ignored_witness :
    generate_cashflow_statement
        { dbC8 with cashflow_types := dbC8.cashflow_types.map toggleActive }
        ⟨2026, 1, 1⟩ ⟨2026, 1, 31⟩ =
      generate_cashflow_statement dbC8 ⟨2026, 1, 1⟩ ⟨2026, 1, 31⟩ :=
  C10_active_flag_ignored dbC8 ⟨2026, 1, 1⟩ ⟨2026, 1, 31⟩ toggleActive
    (fun _ => ⟨rfl, rfl, rfl, rfl, rfl⟩)

theorem select_payment_insufficient_no_fallback (db : DB) (e : FixedExpense)
    (amount : ℚ) (pg : Nat) (pa : Account)
    (hpg : e.primary_account_guid = some pg) (hpa : findAccount db pg = some pa)
    (hshort : pa.current_balance < amount) (hnofb : e.fallback_account_guid = none) :
    select_payment_account db e amount =
      (some pg, [Warning.primaryInsufficient pa.name pa.current_balance,
                 Warning.fallbackNotConfigured]) := by
  unfold select_payment_account
  rw [hpg, hnofb]
  simp only [Option.some_bind, Option.none_bind]
  rw [hpa]
  simp only [if_neg (not_le.mpr hshort)]
  rfl

theorem select_payment_none_iff (db : DB) (e : FixedExpense) (amount : ℚ)
    (hres : ∀ fg, e.fallback_account_guid = some fg → accountExists db fg = true) :
    ((select_payment_account db e amount).1 = none ↔
      e.primary_account_guid = none ∧ e.fallback_account_guid = none) := by
  unfold select_payment_account
  cases hpg : e.primary_account_guid with
  | some p =>
      simp only [Option.some_bind]
      cases hpa : findAccount db p with
      | some pa =>
          by_cases hle : amount ≤ pa.current_balance
          · simp [hle]
          · simp only [if_neg hle]
            cases hfb : e.fallback_account_guid with
            | some fg =>
                have hex := hres fg hfb
                unfold accountExists at hex
                cases hfa : findAccount db fg with
                | none => rw [hfa] at hex; cases hex
                | some fa =>
                    simp only [Option.some_bind]
                    rw [hfa]
                    by_cases hfs : fa.current_balance < amount <;> simp [hfs]
            | none => simp [hpg]
      | none =>
          cases hfb : e.fallback_account_guid with
          | some fg =>
              have hex := hres fg hfb
              unfold accountExists at hex
              cases hfa : findAccount db fg with
              | none => rw [hfa] at hex; cases hex
              | some fa =>
                  simp only [Option.some_bind]
                  rw [hfa]
                  by_cases hfs : fa.current_balance < amount <;> simp [hfs]
          | none => simp [hpg]
  | none =>
      simp only [Option.none_bind]
      cases hfb : e.fallback_account_guid with
      | some fg =>
          have hex := hres fg hfb
          unfold accountExists at hex
          cases hfa : findAccount db fg with
          | none => rw [hfa] at hex; cases hex
          | some fa =>
              simp only [Option.some_bind]
              rw [hfa]
              by_cases hfs : fa.current_balance < amount <;> simp [hfs, hfb]
      | none => simp [hpg, hfb]

/-- C9: for an active, chargeable fixed expense whose primary funding
account exists but cannot cover the amount and whose fallback is not
configured, `execute` still posts the two-split charge against the
primary account (with warnings), driving its balance negative; and the
payment-account selection yields no account (so `execute` returns no
transaction id for funding reasons) exactly when neither primary nor
fallback is configured. -/
theorem C9_execute_insufficient_primary (db : DB) (e : FixedExpense)
    (run_date : Date) (force : Bool) (pg : Nat) (pa : Account) :
    (e.is_active = true →
     (force = true ∨ is_due e run_date = true) →
     0 < e.amount.val →
     e.primary_account_guid = some pg →
     findAccount db pg = some pa →
     pa.current_balance < e.amount.val →
     e.fallback_account_guid = none →
     accountExists db e.expense_account_guid = true →
     pg ≠ e.expense_account_guid →
       (execResult db e run_date force).1 = some db.guidSeq ∧
       (execResult db e run_date force).2.1 =
         [Warning.primaryInsufficient pa.name pa.current_balance,
          Warning.fallbackNotConfigured] ∧
       (execResult db e run_date force).2.2.1.transactions =
         db.transactions ++ [mkTxOf db (chargeTx e run_date pg)] ∧
       balanceOf (execResult db e run_date force).2.2.1 pg =
         pa.current_balance - e.amount.val ∧
       balanceOf (execResult db e run_date force).2.2.1 pg < 0) ∧
    ((∀ fg, e.fallback_account_guid = some fg → accountExists db fg = true) →
     ((select_payment_account db e e.amount.val).1 = none ↔
       e.primary_account_guid = none ∧ e.fallback_account_guid = none)) := by
  constructor
  · intro hactive hdue hampos hpg hpa hshort hnofb hea hne
    have hsel := select_payment_insufficient_no_fallback db e e.amount.val pg pa
      hpg hpa hshort hnofb
    have hz : amountSum (chargeTx e run_date pg) = 0 := by
      unfold amountSum chargeTx
      simp [Dec.neg_val]
    have hv : ensure_double_entry (chargeTx e run_date pg) = .ok () := by
      unfold ensure_double_entry
      rw [if_neg (by norm_num [chargeTx]), if_neg (fun hne' => hne' hz)]
    have happly : ∃ l1, apply_balance_changes db.accounts
        (buildChanges (chargeTx e run_date pg).splits) = .ok l1 := by
      rw [account_keys_bridge db (chargeTx e run_date pg)]
      intro sd hsd
      rcases List.mem_cons.mp hsd with h1 | h2
      · subst h1
        exact hea
      · rcases List.mem_cons.mp h2 with h3 | h4
        · subst h3
          unfold accountExists
          rw [hpa]
          rfl
        · cases h4
    obtain ⟨l1, hab⟩ := happly
    have hpost : post_transaction db (chargeTx e run_date pg) =
        .ok ({ db with accounts := l1,
                       transactions := db.transactions ++
                         [mkTxOf db (chargeTx e run_date pg)],
                       guidSeq := db.guidSeq + 1 +
                         (chargeTx e run_date pg).splits.length },
             mkTxOf db (chargeTx e run_date pg)) := by
      unfold post_transaction
      rw [hv]
      unfold create_transaction
      rw [hab]
    have hexec : execResult db e run_date force =
        (some db.guidSeq,
         [Warning.primaryInsufficient pa.name pa.current_balance,
          Warning.fallbackNotConfigured],
         { db with accounts := l1,
                   transactions := db.transactions ++
                     [mkTxOf db (chargeTx e run_date pg)],
                   guidSeq := db.guidSeq + 1 +
                     (chargeTx e run_date pg).splits.length },
         { e with last_run_month := some (firstOfMonth run_date) }) := by
      unfold execResult execute_fixed_expense
      rw [if_neg (by simp [hactive])]
      rw [if_neg (by rcases hdue with h | h <;> simp [h])]
      rw [if_neg (not_le.mpr hampos)]
      rw [hsel]
      dsimp only
      rw [hpost]
      rfl
    have hbal : balanceOf (execResult db e run_date force).2.2.1 pg =
        pa.current_balance - e.amount.val := by
      rw [hexec]
      show lookupBalance l1 pg = _
      rw [apply_balance_changes_lookup db.accounts _ l1 pg hab,
        sumFor_buildChanges]
      have hlook : lookupBalance db.accounts pg = pa.current_balance := by
        unfold lookupBalance
        unfold findAccount at hpa
        rw [hpa]
        rfl
      rw [hlook]
      have hfil : ((chargeTx e run_date pg).splits.filter
          (fun sd => sd.account_guid == pg)).map (fun sd => sd.amount.val) =
            [(Dec.neg e.amount).val] := by
        unfold chargeTx
        simp only [List.filter_cons, List.filter_nil]
        rw [if_neg (by simpa using fun hc => hne hc.symm), if_pos (by simp)]
        rfl
      rw [hfil]
      simp [Dec.neg_val]
      ring
    refine ⟨?_, ?_, ?_, hbal, ?_⟩
    · rw [hexec]
    · rw [hexec]
    · rw [hexec]
    · rw [hbal]
      linarith
  · intro hres
    exact select_payment_none_iff db e e.amount.val hres

/-- Witness for C9: with the primary account at balance 0 and no fallback
configured, executing a 50.00 charge still posts against the primary
account, whose balance becomes -50; and with neither account configured
the selection would return none. -/
theorem C9_execute_insufficient_primary_witness :
    (execResult dbC7 expC9 ⟨2026, 2, 5⟩ true).1 = some 30 ∧
    (execResult dbC7 expC9 ⟨2026, 2, 5⟩ true).2.1 =
      [Warning.primaryInsufficient "Cash" 0, Warning.fallbackNotConfigured] ∧
    balanceOf (execResult dbC7 expC9 ⟨2026, 2, 5⟩ true).2.2.1 2 = -50 ∧
    balanceOf (execResult dbC7 expC9 ⟨2026, 2, 5⟩ true).2.2.1 2 < 0 ∧
    ((select_payment_account dbC7 expC9 expC9.amount.val).1 = none ↔
      expC9.primary_account_guid = none ∧ expC9.fallback_account_guid = none) := by
  have h := C9_execute_insufficient_primary dbC7 expC9 ⟨2026, 2, 5⟩ true 2
    (acctFix 2 "Cash")
  have h1 := h.1 rfl (Or.inl rfl) (by with_unfolding_all decide) rfl
    (by with_unfolding_all rfl) (by with_unfolding_all decide) rfl
    (by with_unfolding_all rfl) (by decide)
  refine ⟨h1.1, h1.2.1, ?_, h1.2.2.2.2, h.2 (fun fg hfg => nomatch hfg)⟩
  exact h1.2.2.2.1.trans (by with_unfolding_all rfl)
